import Mathlib

/-!
Verification development for the multi-agent orchestration core
(orchestrator/service of the agentic-framework repository).

Shallow embedding: the Python classes and methods that the verified
properties concern are translated into pure Lean definitions.  Stateful
objects become explicit state records; every async method that mutates
state becomes a state-transformer function; external effects (the LLM
call, subprocesses of the quality gate, the remote memory service HTTP
calls, git) are modelled by explicit oracle/environment parameters that
carry their observable results.  Wall-clock timestamps and UUID assignment
are not observable by any property proved here and are omitted from the
records; where a record field of the source is dropped, the definition
doc comment says so.

Sections:
  1. assoc-list helpers (Python dict as insertion-ordered assoc list)
  2. Session store (session_storage.py, both backends)
  3. Memory-learning derivations (memory_learning.py)
  4. Quality gate and attempt outcome (ralph_loop.py)
  5. The Ralph loop state machine (ralph_loop.py)
  6. WebSocket manager ring buffer (websocket_manager.py)
  7. Agent creation (agent_manager.py)
then the theorems settling the claims.
-/

/-- Lookup in an insertion-ordered association list (Python dict read). -/
def getA {α : Type} (m : List (String × α)) (k : String) : Option α :=
  match m with
  | [] => none
  | (k2, v) :: t => if k2 = k then some v else getA t k

/-- Update or insert in an insertion-ordered association list (Python dict
write: an existing key keeps its position, a new key goes to the end). -/
def setA {α : Type} (m : List (String × α)) (k : String) (v : α) :
    List (String × α) :=
  match m with
  | [] => [(k, v)]
  | (k2, w) :: t => if k2 = k then (k2, v) :: t else (k2, w) :: setA t k v

/-! ## Section 2: Session store (session_storage.py) -/

/-- A stored chat message of `InMemorySessionStorage.add_message`
(session_storage.py lines 440-446).  The `id` (uuid4) and `timestamp`
fields of the source are unobservable here and omitted; `metadata` is kept
as an opaque string. -/
structure MemMessage where
  role : String
  content : String
  metadata : String
deriving DecidableEq, Repr

/-- The per-session metadata record written by
`InMemorySessionStorage.create_session` (session_storage.py lines
408-421).  `created_at` / `updated_at` wall-clock strings are omitted. -/
structure MemSession where
  id : String
  messageCount : Nat
  activeWorkflow : Option String
  status : String
deriving DecidableEq, Repr

/-- State of `InMemorySessionStorage` (session_storage.py lines 385-398):
four dicts plus the `max_messages_per_session` cap. -/
structure InMemoryStorage where
  sessions : List (String × MemSession)
  messages : List (String × List MemMessage)
  contexts : List (String × List (String × String))
  workflows : List (String × List (String × String))
  maxMessages : Nat
deriving DecidableEq, Repr

/-- A fresh `InMemorySessionStorage` (empty dicts). -/
def emptyInMemoryStorage (maxMessages : Nat) : InMemoryStorage :=
  { sessions := [], messages := [], contexts := [], workflows := []
    maxMessages := maxMessages }

/-- `InMemorySessionStorage.create_session` (session_storage.py lines
408-421): unconditionally writes a fresh session record and resets the
message list, context dict and workflow dict of that id.  There is no
existence check in the source. -/
def createSession (st : InMemoryStorage) (sid : String) : InMemoryStorage :=
  { st with
    sessions := setA st.sessions sid
      { id := sid, messageCount := 0, activeWorkflow := none
        status := "active" }
    messages := setA st.messages sid []
    contexts := setA st.contexts sid []
    workflows := setA st.workflows sid [] }

/-- Python's negative-index last-n selection, as performed by the slice
`lst[-n:]` and by Redis `LTRIM key -n -1`: both keep the last `n`
entries, except that at `n = 0` the start index `-0` is just `0`, so the
whole list is kept — a no-op rather than an emptying. -/
def takeLastPy {α : Type} (n : Nat) (l : List α) : List α :=
  if n = 0 then l else l.drop (l.length - n)

/-- `InMemorySessionStorage.add_message` (session_storage.py lines
434-457): ensure a message list exists, append, and when the list
exceeds `max_messages` reassign it to its `[-max_messages:]` slice
(which keeps everything when `max_messages = 0`); when the session
record exists, set its `message_count` to the resulting list length. -/
def addMessage (st : InMemoryStorage) (sid role content metadata : String) :
    InMemoryStorage :=
  let cur := (getA st.messages sid).getD []
  let appended := cur ++ [{ role := role, content := content
                            metadata := metadata : MemMessage }]
  let trimmed :=
    if st.maxMessages < appended.length then takeLastPy st.maxMessages appended
    else appended
  let msgs := setA st.messages sid trimmed
  match getA st.sessions sid with
  | some sess =>
      { st with
        messages := msgs
        sessions := setA st.sessions sid
          { sess with messageCount := trimmed.length } }
  | none => { st with messages := msgs }

/-- One observable operation against the in-memory store, for stating
properties over arbitrary call sequences. -/
inductive StoreOp where
  | create (sid : String)
  | add (sid role content metadata : String)
deriving DecidableEq, Repr

/-- Run a sequence of store operations from a starting state. -/
def applyOps (st : InMemoryStorage) : List StoreOp → InMemoryStorage
  | [] => st
  | StoreOp.create sid :: rest => applyOps (createSession st sid) rest
  | StoreOp.add sid r c m :: rest => applyOps (addMessage st sid r c m) rest

/-- The `message_count == len(messages)` invariant of the in-memory store,
read at one observable moment: every existing session record counts
exactly the stored messages of its id. -/
def countInvariant (st : InMemoryStorage) : Prop :=
  ∀ sid sess, getA st.sessions sid = some sess →
    sess.messageCount = ((getA st.messages sid).getD []).length

/-- The `session:{id}` Redis hash as maintained by the Redis-backed
`SessionStorage` (session_storage.py lines 97-121 and 156-204).
`metaFresh` records whether the six metadata fields written by
`create_session` are present; `messageCount` is the numeric content of the
`message_count` field (stored by Redis as a decimal string, incremented by
HINCRBY; its numeric value is modelled directly). -/
structure RSessionHash where
  metaFresh : Bool
  messageCount : Int
deriving DecidableEq, Repr

/-- State of the Redis-backed `SessionStorage`, restricted to the keys the
claims concern: the `session:{id}` hashes and the `messages:{id}` lists.
Messages are kept as their serialized payloads (opaque strings).  TTLs
(EXPIRE) have no observable effect on the proved properties and are not
modelled. -/
structure RedisStore where
  sessions : List (String × RSessionHash)
  messages : List (String × List String)
  maxMessages : Nat
deriving DecidableEq, Repr

/-- An empty Redis backend. -/
def emptyRedisStore (maxMessages : Nat) : RedisStore :=
  { sessions := [], messages := [], maxMessages := maxMessages }

/-- `SessionStorage.create_session` (session_storage.py lines 97-121):
HSET of the full metadata mapping (including `message_count = "0"`) on the
`session:{id}` hash.  The `messages:{id}` list is not touched. -/
def redisCreateSession (st : RedisStore) (sid : String) : RedisStore :=
  { st with
    sessions := setA st.sessions sid { metaFresh := true, messageCount := 0 } }

/-- `SessionStorage.add_message` (session_storage.py lines 156-204):
RPUSH the serialized message onto `messages:{id}`, unconditionally LTRIM
the list with start index `-max_messages` (keeping the last
`max_messages` entries — or everything when `max_messages = 0`, where
the command degenerates to `LTRIM key 0 -1`), then HINCRBY
`message_count` by 1 on `session:{id}` (HINCRBY creates the hash with
the single counter field when the key is absent). -/
def redisAddMessage (st : RedisStore) (sid payload : String) : RedisStore :=
  let cur := (getA st.messages sid).getD []
  let appended := cur ++ [payload]
  let trimmed := takeLastPy st.maxMessages appended
  let newHash :=
    match getA st.sessions sid with
    | some h => { h with messageCount := h.messageCount + 1 }
    | none => { metaFresh := false, messageCount := 1 : RSessionHash }
  { st with
    messages := setA st.messages sid trimmed
    sessions := setA st.sessions sid newHash }

/-- Iterated `SessionStorage.add_message` on one session (payloads in call
order). -/
def redisAddMessages (st : RedisStore) (sid : String) :
    List String → RedisStore
  | [] => st
  | p :: rest => redisAddMessages (redisAddMessage st sid p) sid rest

/-! ## Section 3: Memory-learning derivations (memory_learning.py) -/

/-- Substring test on character lists: the Python `in` operator on `str`. -/
def hasSubstr : List Char → List Char → Bool
  | [], pat => pat.isEmpty
  | h :: t, pat => pat.isPrefixOf (h :: t) || hasSubstr t pat

/-- `pat in hay` for strings. -/
def strContains (hay pat : String) : Bool :=
  hasSubstr hay.toList pat.toList

/-- Python `str.lower`, as a character-wise map (`Char.toLower` agrees
with Python on the ASCII range matched by every pattern below). -/
def strLower (s : String) : String :=
  ⟨s.data.map Char.toLower⟩

/-- One entry of a `quality_check_results` list as consumed by
`_analyze_success_factors` (memory_learning.py lines 498-504). -/
structure QCheckRec where
  name : String
  passed : Bool
deriving DecidableEq, Repr

/-- One element of the `all_attempts` list handed to
`MemoryLearningClient.reflect`: the dict appended per attempt by
`RalphLoop.run` (ralph_loop.py lines 308-314).  `error` is `Option`
because the `error` key holds `None` for successful attempts; for failed
attempts the Ralph loop always stores a string.  (`dict.get("error",
"Unknown error")` of the source is modelled by `Option.getD`.) -/
structure ReflectAttempt where
  attempt : Nat
  success : Bool
  changesMade : Nat
  error : Option String
  qualityChecks : List QCheckRec
deriving DecidableEq, Repr

/-- The error string that `_analyze_failure_patterns` classifies for one
failed attempt (memory_learning.py line 450). -/
def errorOf (a : ReflectAttempt) : String :=
  a.error.getD "Unknown error"

/-- The classification chain of `_analyze_failure_patterns`
(memory_learning.py lines 452-463): case-insensitive substring tests, in
source order. -/
def classifyError (error : String) : String :=
  let e := strLower error
  if strContains e "test" || strContains e "pytest" then "Test failures"
  else if strContains e "syntax" then "Syntax errors"
  else if strContains e "import" then "Import errors"
  else if strContains e "type" then "Type errors"
  else if strContains e "quality" then "Quality check failures"
  else "Implementation errors"

/-- Modelled from the spec: the failure-classification table of spec
section 4.4, written from its words ("classify its error string by
case-insensitive substring match, in this priority order") to be compared
with the classification of the source. -/
def specClassifyError (error : String) : String :=
  if strContains (strLower error) "test" || strContains (strLower error) "pytest"
    then "Test failures"
  else if strContains (strLower error) "syntax" then "Syntax errors"
  else if strContains (strLower error) "import" then "Import errors"
  else if strContains (strLower error) "type" then "Type errors"
  else if strContains (strLower error) "quality" then "Quality check failures"
  else "Implementation errors"

/-- `error_counts[error_type] = error_counts.get(error_type, 0) + 1` on an
insertion-ordered dict (memory_learning.py line 465). -/
def bumpCount (m : List (String × Nat)) (k : String) : List (String × Nat) :=
  match m with
  | [] => [(k, 1)]
  | (k2, n) :: t => if k2 = k then (k2, n + 1) :: t else (k2, n) :: bumpCount t k

/-- The `"{bucket} occurred in {n} attempt(s)"` line
(memory_learning.py line 470). -/
def patternLine (errorType : String) (count : Nat) : String :=
  s!"{errorType} occurred in {count} attempt(s)"

/-- The count-descending order of `sorted(error_counts.items(),
key=lambda x: -x[1])`. -/
def countGE (a b : String × Nat) : Prop := b.2 ≤ a.2

instance : DecidableRel countGE := fun a b => Nat.decLe b.2 a.2

instance : IsTotal (String × Nat) countGE :=
  ⟨fun a b => (Nat.le_total b.2 a.2).imp id id⟩

instance : IsTrans (String × Nat) countGE :=
  ⟨fun _ _ _ hab hbc => Nat.le_trans hbc hab⟩

/-- `MemoryLearningClient._analyze_failure_patterns` (memory_learning.py
lines 440-472): count classified error types in first-occurrence order,
then report them sorted by count descending (Python `sorted` with
`key=lambda x: -x[1]` is a stable descending sort, modelled by the stable
`insertionSort` under `countGE`), keeping only positive counts. -/
def analyzeFailurePatterns (failures : List ReflectAttempt) : List String :=
  if failures.isEmpty then []
  else
    let errorCounts :=
      failures.foldl (fun m f => bumpCount m (classifyError (errorOf f))) []
    let sortedCounts := errorCounts.insertionSort countGE
    (sortedCounts.filter (fun p => 0 < p.2)).map (fun p => patternLine p.1 p.2)

/-- `sum(s.get("changes_made", 0) for s in successes)`
(memory_learning.py line 486). -/
def sumChanges (attempts : List ReflectAttempt) : Nat :=
  attempts.foldl (fun acc a => acc + a.changesMade) 0

/-- The `"Passed quality checks: ..."` factor: the first success whose
quality checks contain a passed entry contributes the comma-joined names
(memory_learning.py lines 498-504). -/
def passedChecksFactor : List ReflectAttempt → List String
  | [] => []
  | s :: rest =>
    let passedChecks := s.qualityChecks.filter (fun c => c.passed)
    if passedChecks.isEmpty then passedChecksFactor rest
    else
      let joined := String.intercalate ", " (passedChecks.map (fun c => c.name))
      [s!"Passed quality checks: {joined}"]

/-- `MemoryLearningClient._analyze_success_factors` (memory_learning.py
lines 474-506).  The one-decimal float rendering of
`f"...{avg:.1f}..."` is abstracted as the parameter `fmtAvg` (total
changes, number of successes ↦ rendered digits); no proved property
depends on the rendered digits. -/
def analyzeSuccessFactors (fmtAvg : Nat → Nat → String)
    (successes failures : List ReflectAttempt) : List String :=
  if successes.isEmpty then []
  else
    let avgLine :=
      s!"Successful attempts averaged {fmtAvg (sumChanges successes) successes.length} file changes"
    let factors := [avgLine]
    let factors :=
      if !failures.isEmpty then
        factors ++ ["Persistence through failures led to success"]
      else factors
    factors ++ passedChecksFactor successes

/-- The per-pattern table lookup of `_generate_recommendations`
(memory_learning.py lines 547-555): the body of its `for pattern in
failure_patterns` loop. -/
def recommendationStep (acc : List String) (pattern : String) : List String :=
  if strContains pattern "Test failures" then
    acc ++ ["Write tests incrementally alongside implementation"]
  else if strContains pattern "Syntax errors" then
    acc ++ ["Run syntax validation before applying changes"]
  else if strContains pattern "Import errors" then
    acc ++ ["Verify all imports exist before implementation"]
  else if strContains pattern "Type errors" then
    acc ++ ["Add type hints and run type checking early"]
  else acc

/-- `MemoryLearningClient._generate_recommendations` (memory_learning.py
lines 538-566).  The source tests `"Persistence" in str(success_factors)`
against the Python repr of the list; that containment holds exactly when
some factor string contains `"Persistence"`, which is how it is written
here. -/
def generateRecommendations (failurePatterns successFactors : List String) :
    List String :=
  let recs := failurePatterns.foldl recommendationStep []
  let recs :=
    if successFactors.any (fun s => strContains s "Persistence") then
      recs ++ ["Retry with refined approach when initial attempt fails"]
    else recs
  let recs :=
    if recs.isEmpty then
      ["Break complex tasks into smaller incremental changes",
       "Run quality checks after each significant change"]
    else recs
  recs.take 5

/-- The failed subset of an attempt list, as `reflect` forms it
(memory_learning.py line 401). -/
def reflectFailures (allAttempts : List ReflectAttempt) : List ReflectAttempt :=
  allAttempts.filter (fun a => !a.success)

/-- The successful subset (memory_learning.py line 402). -/
def reflectSuccesses (allAttempts : List ReflectAttempt) : List ReflectAttempt :=
  allAttempts.filter (fun a => a.success)

/-- The `failure_patterns` field that `MemoryLearningClient.reflect`
derives from an attempt list (memory_learning.py lines 401-405). -/
def reflectFailurePatterns (allAttempts : List ReflectAttempt) : List String :=
  analyzeFailurePatterns (reflectFailures allAttempts)

/-- The `recommendations` field that `MemoryLearningClient.reflect`
derives from an attempt list (memory_learning.py lines 401-411). -/
def reflectRecommendations (fmtAvg : Nat → Nat → String)
    (allAttempts : List ReflectAttempt) : List String :=
  generateRecommendations (reflectFailurePatterns allAttempts)
    (analyzeSuccessFactors fmtAvg (reflectSuccesses allAttempts)
      (reflectFailures allAttempts))

/-- A one-decimal rendering by truncation, used only to instantiate the
abstract `fmtAvg` parameter in concrete witnesses (the witnesses never
depend on the rendered digits). -/
def fmtAvgFloor (total count : Nat) : String :=
  let tenths := 10 * total / count
  s!"{tenths / 10}.{tenths % 10}"

/-- The number of failed attempts classified into bucket `b`: the count
that the spec derivation rule of section 4.4 assigns to a bucket. -/
def bucketCount (failures : List ReflectAttempt) (b : String) : Nat :=
  (failures.filter (fun f => classifyError (errorOf f) = b)).length

/-- The six classification buckets. -/
def bucketNames : List String :=
  ["Test failures", "Syntax errors", "Import errors", "Type errors",
   "Quality check failures", "Implementation errors"]

/-- The classified error type of each failed attempt, in order: the keys
successively inserted into `error_counts` by `_analyze_failure_patterns`. -/
def classifiedKeys (failures : List ReflectAttempt) : List String :=
  failures.map (fun f => classifyError (errorOf f))

/-- The `error_counts` dict built by `_analyze_failure_patterns`
(memory_learning.py lines 448-465). -/
def errorCountsOf (failures : List ReflectAttempt) : List (String × Nat) :=
  failures.foldl (fun m f => bumpCount m (classifyError (errorOf f))) []


/-! ## Section 3b: query_past_learnings (memory_learning.py) -/

/-- One element of the `results` array of a `/memory/query` response,
with the fields read by `query_past_learnings` (memory_learning.py lines
699-713).  The `artifact_content` JSON string is modelled by the fields
the source extracts from it; `score` is an opaque rendered number. -/
structure RemoteResult where
  content : String
  artifactType : String
  score : Option String
  storyId : Option String
  storyTitle : Option String
  insights : List String
  recommendations : List String
  timestamp : Option String
deriving DecidableEq, Repr

/-- One learning dict returned by `query_past_learnings`.  Remote entries
fill the story fields; the local fallback entry fills `source`. -/
structure Learning where
  content : String
  ltype : String
  score : String
  storyId : Option String
  storyTitle : Option String
  insights : List String
  recommendations : List String
  timestamp : Option String
  source : Option String
deriving DecidableEq, Repr

/-- The remote-to-learning conversion of `query_past_learnings`
(memory_learning.py lines 703-713). -/
def learningOfResult (r : RemoteResult) : Learning :=
  { content := r.content, ltype := r.artifactType
    score := r.score.getD "0", storyId := r.storyId
    storyTitle := r.storyTitle, insights := r.insights
    recommendations := r.recommendations, timestamp := r.timestamp
    source := none }

/-- The local `COPILOT.md` fallback entry (memory_learning.py lines
723-729): the last 2000 characters of the file, type `local_memory`,
score `0.5`. -/
def localLearning (copilotContent : String) : Learning :=
  { content := copilotContent.drop (copilotContent.length - 2000)
    ltype := "local_memory", score := "0.5", storyId := none
    storyTitle := none, insights := [], recommendations := []
    timestamp := none, source := some "COPILOT.md" }

/-- Environment of one `query_past_learnings` call: whether the
`/memory/query` POST returns HTTP 200 (`reachable = false` covers the
unreachable service and non-200 responses, both of which leave the remote
learnings empty), the results it returns (the service contract caps them
at the requested `top_k = limit`), and the content of the local
`COPILOT.md` (`none` when the file is absent or unreadable). -/
structure MemoryQueryEnv where
  reachable : Bool
  remoteResults : List RemoteResult
  copilotContent : Option String
deriving DecidableEq, Repr

/-- `MemoryLearningClient.query_past_learnings` (memory_learning.py lines
654-734): collect the remote results when the query succeeds, then append
the single local fallback entry when `COPILOT.md` has content and fewer
than `limit` learnings were gathered. -/
def queryPastLearnings (env : MemoryQueryEnv) (limit : Nat) : List Learning :=
  let learnings :=
    if env.reachable then env.remoteResults.map learningOfResult else []
  match env.copilotContent with
  | some c =>
      if c ≠ "" ∧ learnings.length < limit then
        learnings ++ [localLearning c]
      else learnings
  | none => learnings

/-! ## Section 4: Quality gate and attempt outcome (ralph_loop.py) -/

/-- The observable result of one `subprocess.run` inside
`_run_quality_checks`: exit code plus captured streams. -/
structure SubprocRun where
  returncode : Int
  stdout : String
  stderr : String
deriving DecidableEq, Repr

/-- Environment of one `_run_quality_checks` call: for each of the three
tools, `none` means the `subprocess.run` call raised
(`FileNotFoundError`, timeout, ...), which the source catches and skips;
`some r` means the subprocess completed with result `r`. -/
structure QualityEnv where
  pytest : Option SubprocRun
  ruff : Option SubprocRun
  mypy : Option SubprocRun
deriving DecidableEq, Repr

/-- One entry of the `checks` list built by `_run_quality_checks`
(ralph_loop.py lines 633-638, 658-663, 680-685). -/
structure QualityCheckRec where
  name : String
  passed : Bool
  output : String
deriving DecidableEq, Repr

/-- The dict returned by `_run_quality_checks` (ralph_loop.py lines
702-707). -/
structure QualityResult where
  passed : Bool
  checks : List QualityCheckRec
  errors : List String
  warnings : List String
deriving DecidableEq, Repr

/-- `RalphLoop._run_quality_checks` (ralph_loop.py lines 617-707): run
pytest, ruff and mypy with the recorded outcomes of `env`; a completed
subprocess is recorded as a check whose `passed` is `returncode == 0`;
failing pytest or mypy adds a warning; the `errors` list is never
appended to, and the gate passes exactly when `errors` is empty. -/
def runQualityChecks (env : QualityEnv) : QualityResult :=
  let checks : List QualityCheckRec := []
  let errors : List String := []
  let warnings : List String := []
  let (checks, warnings) :=
    match env.pytest with
    | none => (checks, warnings)
    | some r =>
        let c : QualityCheckRec :=
          { name := "pytest", passed := r.returncode == 0
            output := if r.stdout = "" then r.stderr.take 500
                      else r.stdout.take 500 }
        (checks ++ [c],
         if c.passed then warnings
         else warnings ++ [s!"pytest warnings: {r.stderr.take 200}"])
  let checks :=
    match env.ruff with
    | none => checks
    | some r =>
        checks ++ [{ name := "ruff", passed := r.returncode == 0
                     output := if r.stdout = "" then "" else r.stdout.take 500 }]
  let (checks, warnings) :=
    match env.mypy with
    | none => (checks, warnings)
    | some r =>
        let c : QualityCheckRec :=
          { name := "mypy", passed := r.returncode == 0
            output := if r.stdout = "" then "" else r.stdout.take 500 }
        (checks ++ [c],
         if c.passed then warnings
         else warnings ++ [s!"mypy warnings: {r.stdout.take 200}"])
  { passed := errors.length == 0, checks := checks, errors := errors
    warnings := warnings }

/-- The code-generation step of `_implement_story`, abstracted to its
observable result (`_implement_with_agent` / `_implement_with_copilot_cli`,
ralph_loop.py lines 396-401): success flag and error. -/
structure GenResult where
  success : Bool
  error : Option String
deriving DecidableEq, Repr

/-- The `(success, attempt_data)` pair of `_implement_story`, restricted
to the fields the Ralph loop reads (ralph_loop.py lines 382-389). -/
structure AttemptOutcome where
  success : Bool
  error : Option String
  changesMade : Nat
  qualityChecks : List QualityCheckRec
deriving DecidableEq, Repr

/-- `RalphLoop._implement_story` (ralph_loop.py lines 371-431): fail on
code-generation error, fail when zero file changes were applied, then run
the quality gate and fail only when it reports not passed.  `changes` is
the file count from `_apply_code_changes` (the regex parse of the LLM
output is abstracted to this count).  The unreachable quality-failure
message renders the empty `errors` list as `[]`. -/
def implementStory (gen : GenResult) (changes : Nat) (qenv : QualityEnv) :
    AttemptOutcome :=
  if !gen.success then
    { success := false, error := some (gen.error.getD "Code generation failed")
      changesMade := 0, qualityChecks := [] }
  else if changes = 0 then
    { success := false, error := some "No code changes applied"
      changesMade := changes, qualityChecks := [] }
  else
    let q := runQualityChecks qenv
    if !q.passed then
      let joined := String.intercalate ", " q.errors
      { success := false
        error := some s!"Quality checks failed: [{joined}]"
        changesMade := changes, qualityChecks := q.checks }
    else
      { success := true, error := none, changesMade := changes
        qualityChecks := q.checks }

/-! ## Section 5: The Ralph loop state machine (ralph_loop.py) -/

/-- `StoryStatus` (ralph_loop.py lines 36-42). -/
inductive StoryStatus where
  | notStarted
  | inProgress
  | completed
  | failed
  | skipped
deriving DecidableEq, Repr

/-- `UserStory` (ralph_loop.py lines 45-70), restricted to the fields the
loop reads or writes.  `completedAtSet` models whether `completed_at`
holds a timestamp. -/
structure UserStory where
  id : String
  title : String
  priority : Int
  dependencies : List String
  status : StoryStatus
  attempts : Nat
  lastError : Option String
  completedAtSet : Bool
  commitSha : Option String
deriving DecidableEq, Repr

/-- The eligibility test of `PRD.get_next_story` (ralph_loop.py lines
123-126): status not in (COMPLETED, FAILED, SKIPPED). -/
def isIncomplete (s : UserStory) : Bool :=
  !(s.status == StoryStatus.completed || s.status == StoryStatus.failed
    || s.status == StoryStatus.skipped)

/-- `PRD.get_next_story` (ralph_loop.py lines 121-132): filter the
incomplete stories, stable-sort by priority ascending, return the head. -/
def getNextStory (stories : List UserStory) : Option UserStory :=
  ((stories.filter isIncomplete).mergeSort
    (fun a b => decide (a.priority ≤ b.priority))).head?

/-- The position, in the PRD story list, of the story object that
`get_next_story` returns: the head of the stable ascending sort of the
incomplete stories is the first incomplete story attaining the minimal
priority.  The loop mutates that story object in place, so the embedding
tracks it by this index. -/
def nextStoryIdx (stories : List UserStory) : Option Nat :=
  match ((stories.filter isIncomplete).map (fun s => s.priority)).min? with
  | none => none
  | some p => stories.findIdx? (fun s => isIncomplete s && s.priority == p)

/-- One attempt dict appended to `self.story_attempts[story.id]`
(ralph_loop.py lines 308-314). -/
structure AttemptRec where
  attempt : Nat
  success : Bool
  changesMade : Nat
  error : Option String
  qualityChecks : List QualityCheckRec
deriving DecidableEq, Repr

/-- One diary write performed by `_write_diary_entry` (ralph_loop.py
lines 709-737), restricted to the identifying fields. -/
structure DiaryEvent where
  storyId : String
  attemptNumber : Nat
  success : Bool
  error : Option String
deriving DecidableEq, Repr

/-- One `MemoryLearningClient.reflect` call performed by
`_reflect_on_story` (ralph_loop.py lines 739-762), with the arguments the
loop passes. -/
structure ReflectionEvent where
  storyId : String
  totalAttempts : Nat
  finalSuccess : Bool
  allAttempts : List AttemptRec
  commitSha : Option String
deriving DecidableEq, Repr

/-- The mutable state of one `RalphLoop.run` execution: the PRD story
list, the iteration counter, the `story_attempts` log (the keyed dict of
lists is flattened to a keyed append log; `attemptsFor` recovers one
list), and the diary/reflection calls issued to the memory client. -/
structure RalphState where
  stories : List UserStory
  iteration : Nat
  storyAttempts : List (String × AttemptRec)
  diaryLog : List DiaryEvent
  reflections : List ReflectionEvent
deriving DecidableEq, Repr

/-- `self.story_attempts.get(story_id, [])` (ralph_loop.py line 745). -/
def attemptsFor (log : List (String × AttemptRec)) (sid : String) :
    List AttemptRec :=
  (log.filter (fun e => e.1 == sid)).map (fun e => e.2)

/-- Environment of one Ralph run, carrying the observable results of the
external effects of one iteration: `implOutcome n s` is the
`_implement_story` result at iteration `n` for story `s` (already in its
in-progress state) — the LLM call, file writes and quality gate behind it
are abstracted to this outcome; `commitShaAt n` is what `_commit_changes`
returns at iteration `n`.  The memory client is reachable: diary and
reflect calls succeed (this is the reachability hypothesis of the
claims). -/
structure RalphEnv where
  implOutcome : Nat → UserStory → AttemptOutcome
  commitShaAt : Nat → Option String

/-- The `while` body of `RalphLoop.run` (ralph_loop.py lines 276-337),
iterated on explicit fuel (the loop terminates; `ralphRun` supplies
sufficient fuel and `ralphRun_done` proves it reaches an exit).  Each
pass: stop when `iteration >= max_iterations` or no story is eligible;
mark an over-budget story failed and continue; otherwise increment the
iteration, move the story to in-progress with one more attempt, run the
implementation, write the diary entry, log the attempt, and either
complete-commit-reflect (success) or record `last_error` (failure). -/
def ralphLoop (env : RalphEnv) (maxIterations maxRetries : Nat) :
    Nat → RalphState → RalphState
  | 0, st => st
  | fuel + 1, st =>
    if st.iteration < maxIterations then
      match nextStoryIdx st.stories with
      | none => st
      | some i =>
        match st.stories[i]? with
        | none => st
        | some s =>
          if maxRetries ≤ s.attempts then
            ralphLoop env maxIterations maxRetries fuel
              { st with stories := st.stories.set i { s with status := StoryStatus.failed } }
          else
            let iter2 := st.iteration + 1
            let s1 := { s with status := StoryStatus.inProgress
                               attempts := s.attempts + 1 }
            let out := env.implOutcome iter2 s1
            let attemptRec : AttemptRec :=
              { attempt := s1.attempts, success := out.success
                changesMade := out.changesMade, error := out.error
                qualityChecks := out.qualityChecks }
            let st1 := { st with
              iteration := iter2
              diaryLog := st.diaryLog ++
                [({ storyId := s.id, attemptNumber := s1.attempts
                    success := out.success, error := out.error } : DiaryEvent)]
              storyAttempts := st.storyAttempts ++ [(s.id, attemptRec)] }
            if out.success then
              let sha := env.commitShaAt iter2
              let s2 := { s1 with status := StoryStatus.completed
                                  completedAtSet := true, commitSha := sha }
              ralphLoop env maxIterations maxRetries fuel
                { st1 with
                  stories := st1.stories.set i s2
                  reflections := st1.reflections ++
                    [({ storyId := s.id, totalAttempts := s2.attempts
                        finalSuccess := true
                        allAttempts := attemptsFor st1.storyAttempts s.id
                        commitSha := sha } : ReflectionEvent)] }
            else
              ralphLoop env maxIterations maxRetries fuel
                { st1 with stories := st1.stories.set i { s1 with lastError := out.error } }
    else st

/-- The state `RalphLoop.run` starts from (fresh loop over a PRD). -/
def initRalphState (stories : List UserStory) : RalphState :=
  { stories := stories, iteration := 0, storyAttempts := []
    diaryLog := [], reflections := [] }

/-- Fuel bound: each pass either raises `iteration` (at most
`max_iterations` times) or marks one incomplete story failed (at most
once per story), so this many passes reach an exit. -/
def ralphFuel (maxIterations : Nat) (stories : List UserStory) : Nat :=
  maxIterations + stories.length

/-- One full `RalphLoop.run` over a PRD: iterate the body until an exit
condition holds. -/
def ralphRun (env : RalphEnv) (maxIterations maxRetries : Nat)
    (stories : List UserStory) : RalphState :=
  ralphLoop env maxIterations maxRetries (ralphFuel maxIterations stories)
    (initRalphState stories)

/-- The exit condition of the `while` loop of `RalphLoop.run`: the
iteration budget is exhausted or no story is eligible. -/
def ralphDone (maxIterations : Nat) (st : RalphState) : Prop :=
  maxIterations ≤ st.iteration ∨ nextStoryIdx st.stories = none

/-- Reflections recorded for one story id. -/
def reflectionsFor (st : RalphState) (sid : String) : List ReflectionEvent :=
  st.reflections.filter (fun r => r.storyId == sid)

/-! ## Section 6: WebSocket manager ring buffer (websocket_manager.py) -/

/-- One event handed to `WebSocketManager.broadcast`. -/
structure WSEvent where
  etype : String
  payload : String
deriving DecidableEq, Repr

/-- State of `WebSocketManager`, restricted to what the buffered-replay
properties observe: the global sequence of broadcast events (delivery to
each live connection follows this sequence) and the per-channel
`message_buffer` with its `buffer_size` (websocket_manager.py lines
42-44). -/
structure WSState where
  sent : List WSEvent
  messageBuffer : List (String × List String)
  bufferSize : Nat
deriving DecidableEq, Repr

/-- A fresh `WebSocketManager` (`buffer_size = 50`,
websocket_manager.py line 44). -/
def emptyWSState : WSState :=
  { sent := [], messageBuffer := [], bufferSize := 50 }

/-- `WebSocketManager._buffer_message` (websocket_manager.py lines
358-367): append to the channel list and, when it exceeds
`buffer_size`, reassign it to its `[-buffer_size:]` slice (which keeps
everything when `buffer_size = 0`). -/
def bufferMessage (st : WSState) (channel payload : String) : WSState :=
  let cur := (getA st.messageBuffer channel).getD []
  let appended := cur ++ [payload]
  let trimmed :=
    if st.bufferSize < appended.length then takeLastPy st.bufferSize appended
    else appended
  { st with messageBuffer := setA st.messageBuffer channel trimmed }

/-- `WebSocketManager.broadcast_chat_stream` (websocket_manager.py lines
297-315): broadcast the chunk event to the connections.  No call into
`_buffer_message` occurs in the source. -/
def broadcastChatStream (st : WSState) (_sessionId chunk : String) : WSState :=
  { st with sent := st.sent ++ [{ etype := "chat_stream", payload := chunk }] }

/-- `WebSocketManager.broadcast_chat_message` (websocket_manager.py lines
280-285): broadcast, then buffer the payload under the fixed channel key
`"chat"`. -/
def broadcastChatMessage (st : WSState) (payload : String) : WSState :=
  bufferMessage
    { st with sent := st.sent ++ [{ etype := "chat_message", payload := payload }] }
    "chat" payload

/-- `WebSocketManager.send_buffered_messages` (websocket_manager.py lines
369-380): the events replayed to a late joiner for a channel, in buffer
order (an absent channel replays nothing). -/
def sendBufferedMessages (st : WSState) (channel : String) : List String :=
  (getA st.messageBuffer channel).getD []

/-- A sequence of `broadcast_chat_stream` calls on one session channel. -/
def broadcastChatStreams (st : WSState) (sessionId : String) :
    List String → WSState
  | [] => st
  | c :: rest => broadcastChatStreams (broadcastChatStream st sessionId c) sessionId rest

/-- A sequence of `_buffer_message` calls on one channel. -/
def bufferMessages (st : WSState) (channel : String) : List String → WSState
  | [] => st
  | p :: rest => bufferMessages (bufferMessage st channel p) channel rest

/-! ## Section 7: Agent creation (agent_manager.py) -/

/-- `AgentRole` (agent_manager.py lines 61-68). -/
inductive AgentRole where
  | research
  | verify
  | code
  | synthesis
  | review
  | orchestrator
deriving DecidableEq, Repr

/-- `AgentRole(value)` lookup by enum value (the constructor call of
agent_manager.py line 346): `none` models the `ValueError`. -/
def agentRoleOfString (s : String) : Option AgentRole :=
  if s = "research" then some AgentRole.research
  else if s = "verify" then some AgentRole.verify
  else if s = "code" then some AgentRole.code
  else if s = "synthesis" then some AgentRole.synthesis
  else if s = "review" then some AgentRole.review
  else if s = "orchestrator" then some AgentRole.orchestrator
  else none

/-- One entry of `self.templates` (agent_manager.py lines 228-264). -/
structure AgentTemplate where
  role : AgentRole
  systemPrompt : String
  capabilities : List String
deriving DecidableEq, Repr

/-- `self.templates.get(key)` (agent_manager.py lines 228-264): the five
registered role templates, with their prompts verbatim. -/
def templatesGet (key : String) : Option AgentTemplate :=
  if key = "research" then some
    { role := AgentRole.research
      systemPrompt := "You are a Research Agent. Your task is to gather comprehensive information.\nProvide detailed, factual research with sources where possible.\nFocus on accuracy and completeness."
      capabilities := ["web_search", "document_analysis", "fact_extraction"] }
  else if key = "verify" then some
    { role := AgentRole.verify
      systemPrompt := "You are a Verification Agent. Your task is to validate and verify information.\nCross-reference claims and provide confidence assessments.\nBe skeptical and thorough."
      capabilities := ["fact_checking", "source_validation", "claim_analysis"] }
  else if key = "code" then some
    { role := AgentRole.code
      systemPrompt := "You are a Code Agent. Your task is to write clean, efficient code.\nFollow best practices, include comments, and write tests.\nYou can create new files and programs."
      capabilities := ["code_generation", "file_operations", "testing"] }
  else if key = "synthesis" then some
    { role := AgentRole.synthesis
      systemPrompt := "You are a Synthesis Agent. Your task is to combine and summarize information.\nCreate coherent summaries from multiple sources.\nHighlight key insights and conclusions."
      capabilities := ["summarization", "insight_extraction", "report_generation"] }
  else if key = "review" then some
    { role := AgentRole.review
      systemPrompt := "You are a Review Agent. Your task is to review and critique work.\nProvide constructive feedback and suggestions for improvement.\nBe thorough but fair in your assessment."
      capabilities := ["code_review", "document_review", "quality_assessment"] }
  else none

/-- The created `Agent` record (agent_manager.py lines 356-364),
restricted to the fields `create_agent` determines. -/
structure AgentModel where
  name : String
  role : AgentRole
  systemPrompt : String
  model : String
  capabilities : List String
  parentId : Option String
deriving DecidableEq, Repr

/-- `AgentManager.create_agent` (agent_manager.py lines 309-388): `none`
models the `ValueError` raised on a name collision; otherwise the role
string is looked up case-lowered in the enum, an unknown role falling
back to `RESEARCH`; prompt, capabilities and model fall back through
Python `or` (so an empty explicit value also falls back) to the template
of the lowered role or the generic prompt. -/
def createAgent (existingNames : List String) (name roleStr : String)
    (systemPrompt : Option String) (model : Option String)
    (capabilities : Option (List String)) (parentId : Option String)
    (useTemplate : Bool) (managerModel : String) : Option AgentModel :=
  if name ∈ existingNames then none
  else
    let template := if useTemplate then templatesGet (strLower roleStr) else none
    let agentRole := (agentRoleOfString (strLower roleStr)).getD AgentRole.research
    let promptFallback :=
      match template with
      | some t => t.systemPrompt
      | none => s!"You are a {roleStr} agent."
    let finalPrompt :=
      match systemPrompt with
      | some p => if p = "" then promptFallback else p
      | none => promptFallback
    let capsFallback :=
      match template with
      | some t => t.capabilities
      | none => []
    let finalCapabilities :=
      match capabilities with
      | some c => if c.isEmpty then capsFallback else c
      | none => capsFallback
    let finalModel :=
      match model with
      | some m => if m = "" then managerModel else m
      | none => managerModel
    some { name := name, role := agentRole, systemPrompt := finalPrompt
           model := finalModel, capabilities := finalCapabilities
           parentId := parentId }

/-- The six role strings whose lowercase forms the `AgentRole` enum
accepts. -/
def knownRoleValues : List String :=
  ["research", "verify", "code", "synthesis", "review", "orchestrator"]

/-! ## Helper lemmas -/

theorem getA_setA_self {α : Type} (m : List (String × α)) (k : String) (v : α) :
    getA (setA m k v) k = some v := by
  induction m with
  | nil => simp [getA, setA]
  | cons h t ih =>
    obtain ⟨k2, w⟩ := h
    by_cases hk : k2 = k
    · simp [getA, setA, hk]
    · simp [getA, setA, hk, ih]

theorem getA_setA_ne {α : Type} (m : List (String × α)) (k k2 : String) (v : α)
    (h : k ≠ k2) : getA (setA m k v) k2 = getA m k2 := by
  induction m with
  | nil => simp [getA, setA, h]
  | cons hd t ih =>
    obtain ⟨k3, w⟩ := hd
    by_cases hk : k3 = k
    · subst hk
      simp [getA, setA, h]
    · simp [getA, setA, hk, ih]

/-! ## Claim C4: create_session idempotence -/

/-- Claim C4, counterexample: `create_session` on an existing id is not a
no-op in the in-memory store — after one stored message, a second
`create_session("s")` empties the message list and resets
`message_count`, so the state changes. -/
theorem claim_C4_counterexample :
    getA (addMessage (createSession (emptyInMemoryStorage 100) "s") "s" "user" "hi" "{}").messages "s"
      = some [{ role := "user", content := "hi", metadata := "{}" }] ∧
    getA (createSession (addMessage (createSession (emptyInMemoryStorage 100) "s") "s" "user" "hi" "{}") "s").messages "s"
      = some [] ∧
    createSession (addMessage (createSession (emptyInMemoryStorage 100) "s") "s" "user" "hi" "{}") "s"
      ≠ addMessage (createSession (emptyInMemoryStorage 100) "s") "s" "user" "hi" "{}" := by
  decide

/-- Claim C4 (amended): a repeated `create_session(x)` is a
reinitialization, not a no-op: the in-memory store resets the session
record (`message_count = 0`) and clears the stored messages, context and
workflows of `x`; the Redis-backed store rewrites the `session:{x}` hash
to fresh metadata (`message_count = 0`) while leaving the stored message
list untouched. -/
theorem claim_C4_amended (st : InMemoryStorage) (rst : RedisStore) (sid : String) :
    getA (createSession st sid).sessions sid
      = some { id := sid, messageCount := 0, activeWorkflow := none, status := "active" } ∧
    getA (createSession st sid).messages sid = some [] ∧
    getA (createSession st sid).contexts sid = some [] ∧
    getA (createSession st sid).workflows sid = some [] ∧
    (redisCreateSession rst sid).messages = rst.messages ∧
    getA (redisCreateSession rst sid).sessions sid
      = some { metaFresh := true, messageCount := 0 } := by
  refine ⟨?_, ?_, ?_, ?_, rfl, ?_⟩ <;>
    simp [createSession, redisCreateSession, getA_setA_self]

/-! ## Claim C5: message_count vs stored message list -/

theorem countInvariant_empty (mm : Nat) : countInvariant (emptyInMemoryStorage mm) := by
  intro sid sess h
  simp [emptyInMemoryStorage, getA] at h

theorem countInvariant_create {st : InMemoryStorage} (hc : countInvariant st)
    (sid : String) : countInvariant (createSession st sid) := by
  intro sid2 sess h
  by_cases he : sid = sid2
  · subst he
    simp only [createSession, getA_setA_self, Option.some.injEq] at h
    subst h
    simp [createSession, getA_setA_self]
  · simp only [createSession, getA_setA_ne _ _ _ _ he] at h
    simpa [createSession, getA_setA_ne _ _ _ _ he] using hc sid2 sess h

theorem countInvariant_add {st : InMemoryStorage} (hc : countInvariant st)
    (sid role content metadata : String) :
    countInvariant (addMessage st sid role content metadata) := by
  intro sid2 sess h
  cases hg : getA st.sessions sid with
  | some s0 =>
      by_cases he : sid = sid2
      · subst he
        simp only [addMessage, hg, getA_setA_self, Option.some.injEq] at h
        subst h
        simp [addMessage, hg, getA_setA_self]
      · simp only [addMessage, hg, getA_setA_ne _ _ _ _ he] at h
        simpa [addMessage, hg, getA_setA_ne _ _ _ _ he] using hc sid2 sess h
  | none =>
      by_cases he : sid = sid2
      · subst he
        simp only [addMessage, hg] at h
        exact absurd h (by simp [hg])
      · simp only [addMessage, hg] at h
        simpa [addMessage, hg, getA_setA_ne _ _ _ _ he] using hc sid2 sess h

theorem countInvariant_applyOps (ops : List StoreOp) (st : InMemoryStorage)
    (hc : countInvariant st) : countInvariant (applyOps st ops) := by
  induction ops generalizing st with
  | nil => exact hc
  | cons op rest ih =>
    cases op with
    | create sid => exact ih _ (countInvariant_create hc sid)
    | add sid r c m => exact ih _ (countInvariant_add hc sid r c m)

theorem redisAddMessages_general (sid : String) (ps : List String) :
    ∀ (st : RedisStore) (hsh : RSessionHash) (cur : List String),
    getA st.sessions sid = some hsh →
    (getA st.messages sid).getD [] = cur →
    (st.maxMessages = 0 ∨ cur.length ≤ st.maxMessages) →
    getA (redisAddMessages st sid ps).sessions sid
        = some { hsh with messageCount := hsh.messageCount + ps.length } ∧
    ((getA (redisAddMessages st sid ps).messages sid).getD []).length
        = (if st.maxMessages = 0 then cur.length + ps.length
           else min (cur.length + ps.length) st.maxMessages) ∧
    (redisAddMessages st sid ps).maxMessages = st.maxMessages := by
  induction ps with
  | nil =>
    intro st hsh cur hs hm hlen
    refine ⟨by simpa using hs, ?_, rfl⟩
    simp only [redisAddMessages, hm, List.length_nil]
    rcases hlen with h0 | hle
    · simp [h0]
    · split <;> omega
  | cons p rest ih =>
    intro st hsh cur hs hm hlen
    have hstep :
        redisAddMessages st sid (p :: rest)
          = redisAddMessages (redisAddMessage st sid p) sid rest := rfl
    set st2 := redisAddMessage st sid p with hst2
    have hs2 : getA st2.sessions sid = some { hsh with messageCount := hsh.messageCount + 1 } := by
      simp [hst2, redisAddMessage, hs, getA_setA_self]
    have hmax2 : st2.maxMessages = st.maxMessages := rfl
    have hm2 : (getA st2.messages sid).getD []
        = takeLastPy st.maxMessages (cur ++ [p]) := by
      simp [hst2, redisAddMessage, hm, getA_setA_self]
    have hlen2 : ((getA st2.messages sid).getD []).length
        = (if st.maxMessages = 0 then cur.length + 1
           else min (cur.length + 1) st.maxMessages) := by
      rw [hm2]
      by_cases h0 : st.maxMessages = 0
      · simp [takeLastPy, h0]
      · simp only [takeLastPy, if_neg h0, List.length_drop, List.length_append,
          List.length_cons, List.length_nil]
        omega
    have hrec : st2.maxMessages = 0 ∨
        ((getA st2.messages sid).getD []).length ≤ st2.maxMessages := by
      by_cases h0 : st.maxMessages = 0
      · exact Or.inl (hmax2.trans h0)
      · right
        rw [hmax2, hlen2, if_neg h0]
        omega
    obtain ⟨h1, h2, h3⟩ := ih st2 _ _ hs2 rfl hrec
    refine ⟨?_, ?_, by rw [hstep, h3, hmax2]⟩
    · rw [hstep, h1]
      congr 1
      simp
      ring
    · rw [hstep, h2, hlen2, hmax2]
      by_cases h0 : st.maxMessages = 0
      · simp [h0]
        omega
      · simp [h0]
        omega

/-- Claim C5, counterexample: in the Redis-backed store with
`max_messages_per_session = 1`, two appends leave `message_count = 2`
while only one message is stored, so the field does not equal the list
length once eviction occurs. -/
theorem claim_C5_counterexample :
    getA (redisAddMessages (redisCreateSession (emptyRedisStore 1) "s") "s" ["a", "b"]).sessions "s"
      = some { metaFresh := true, messageCount := 2 } ∧
    (getA (redisAddMessages (redisCreateSession (emptyRedisStore 1) "s") "s" ["a", "b"]).messages "s").getD []
      = ["b"] := by
  decide

/-- Claim C5 (amended): in the in-memory store the invariant holds at
every observable moment of every call sequence; in the Redis-backed store
`message_count` counts all appends ever made while the stored list holds
`min(appends, max_messages_per_session)` messages once
`max_messages_per_session` is positive — at `max_messages_per_session =
0` the LTRIM start index `-0` degenerates to `0` and every appended
message is retained.  So the two stores agree only until eviction
begins. -/
theorem claim_C5_amended (mm maxm : Nat) (sid : String) (ps : List String)
    (ops : List StoreOp) :
    countInvariant (applyOps (emptyInMemoryStorage mm) ops) ∧
    getA (redisAddMessages (redisCreateSession (emptyRedisStore maxm) sid) sid ps).sessions sid
      = some { metaFresh := true, messageCount := (ps.length : Int) } ∧
    ((getA (redisAddMessages (redisCreateSession (emptyRedisStore maxm) sid) sid ps).messages sid).getD []).length
      = (if maxm = 0 then ps.length else min ps.length maxm) := by
  refine ⟨countInvariant_applyOps ops _ (countInvariant_empty mm), ?_, ?_⟩
  · have := (redisAddMessages_general sid ps (redisCreateSession (emptyRedisStore maxm) sid)
      { metaFresh := true, messageCount := 0 } []
      (by simp [redisCreateSession, emptyRedisStore, getA_setA_self])
      (by simp [redisCreateSession, emptyRedisStore, getA])
      (Or.inr (Nat.zero_le _))).1
    simpa using this
  · have := (redisAddMessages_general sid ps (redisCreateSession (emptyRedisStore maxm) sid)
      { metaFresh := true, messageCount := 0 } []
      (by simp [redisCreateSession, emptyRedisStore, getA_setA_self])
      (by simp [redisCreateSession, emptyRedisStore, getA])
      (Or.inr (Nat.zero_le _))).2.1
    simpa [redisCreateSession, emptyRedisStore] using this

/-! ## Claim C8: query_past_learnings bounds and unreachable behavior -/

/-- Claim C8, counterexample: with the memory service unreachable and the
local COPILOT.md present (the client creates that file at init), the
function returns the single local fallback entry — not an empty list. -/
theorem claim_C8_counterexample :
    queryPastLearnings
      { reachable := false, remoteResults := [], copilotContent := some "# Copilot Memory" } 5
      = [localLearning "# Copilot Memory"] ∧
    queryPastLearnings
      { reachable := false, remoteResults := [], copilotContent := some "# Copilot Memory" } 5
      ≠ [] := by
  decide

/-- Claim C8 (amended): `query_past_learnings` returns at most `limit`
results (given the service honors `top_k = limit`); when the service is
unreachable the remote learnings are empty, and the call returns an empty
list only when the local COPILOT.md is also absent or empty — otherwise
it returns exactly the one local fallback entry. -/
theorem claim_C8_amended (env : MemoryQueryEnv) (limit : Nat)
    (hcap : env.remoteResults.length ≤ limit) :
    (queryPastLearnings env limit).length ≤ limit ∧
    (env.reachable = false → env.copilotContent = none →
      queryPastLearnings env limit = []) ∧
    (∀ c, env.reachable = false → env.copilotContent = some c → ¬c = "" →
      0 < limit → queryPastLearnings env limit = [localLearning c]) := by
  have hL : (if env.reachable then env.remoteResults.map learningOfResult else []).length ≤ limit := by
    by_cases hr : env.reachable
    · simpa [hr] using hcap
    · simp [hr]
  refine ⟨?_, ?_, ?_⟩
  · by_cases hr : env.reachable
    · cases hcop : env.copilotContent with
      | none => simp only [queryPastLearnings, hr, if_true, hcop]; simpa using hcap
      | some c =>
          simp only [queryPastLearnings, hr, if_true, hcop]
          split
          · rename_i hcond
            simp only [List.length_append, List.length_singleton,
              List.length_map] at hcond ⊢
            omega
          · simpa using hcap
    · simp only [Bool.not_eq_true] at hr
      cases hcop : env.copilotContent with
      | none => simp [queryPastLearnings, hr, hcop]
      | some c =>
          simp only [queryPastLearnings, hr, Bool.false_eq_true, if_false, hcop]
          split
          · rename_i hcond
            simp only [List.nil_append, List.length_singleton]
            omega
          · simp
  · intro hr hcop
    simp [queryPastLearnings, hr, hcop]
  · intro c hr hcop hc hlim
    simp [queryPastLearnings, hr, hcop, hc, hlim]

/-- Claim C8, witness: the amended statement applied at a concrete
unreachable environment. -/
theorem claim_C8_amended_witness :
    (queryPastLearnings
      { reachable := false, remoteResults := [], copilotContent := some "notes" } 3).length ≤ 3 ∧
    (MemoryQueryEnv.reachable
        { reachable := false, remoteResults := [], copilotContent := some "notes" } = false →
      MemoryQueryEnv.copilotContent
        { reachable := false, remoteResults := [], copilotContent := some "notes" } = none →
      queryPastLearnings
        { reachable := false, remoteResults := [], copilotContent := some "notes" } 3 = []) ∧
    (∀ c, MemoryQueryEnv.reachable
        { reachable := false, remoteResults := [], copilotContent := some "notes" } = false →
      MemoryQueryEnv.copilotContent
        { reachable := false, remoteResults := [], copilotContent := some "notes" } = some c →
      ¬c = "" → 0 < 3 →
      queryPastLearnings
        { reachable := false, remoteResults := [], copilotContent := some "notes" } 3
        = [localLearning c]) :=
  claim_C8_amended
    { reachable := false, remoteResults := [], copilotContent := some "notes" } 3
    (by decide)

/-! ## Claim C9: ring-buffered replay and chat_stream events -/

theorem lastN_eq {α : Type} (l : List α) (k : Nat) :
    l.drop (l.length - k) = (l.reverse.take k).reverse := by
  have h := List.reverse_take (l := l.reverse) (n := k)
  simpa using h.symm

theorem lastN_absorb {α : Type} (l r : List α) (k : Nat) :
    ((l.drop (l.length - k)) ++ r).drop (((l.drop (l.length - k)) ++ r).length - k)
      = (l ++ r).drop ((l ++ r).length - k) := by
  rw [lastN_eq ((l.drop (l.length - k)) ++ r) k, lastN_eq (l ++ r) k]
  congr 1
  rw [List.reverse_append, List.reverse_append]
  rw [lastN_eq l k, List.reverse_reverse]
  rw [List.take_append_eq_append_take, List.take_append_eq_append_take]
  congr 1
  rw [List.take_take]
  congr 1
  simp only [List.length_reverse]
  omega

theorem trimRing_eq {α : Type} (l : List α) (k : Nat) (hk : 0 < k) :
    (if k < l.length then takeLastPy k l else l) = l.drop (l.length - k) := by
  have hk0 : ¬ k = 0 := by omega
  simp only [takeLastPy, if_neg hk0]
  split
  · rfl
  · rename_i h
    have h0 : l.length - k = 0 := by omega
    simp [h0]

theorem bufferMessages_spec (channel : String) (ps : List String) :
    ∀ (st : WSState) (cur : List String),
    0 < st.bufferSize →
    (getA st.messageBuffer channel).getD [] = cur →
    cur.length ≤ st.bufferSize →
    (getA (bufferMessages st channel ps).messageBuffer channel).getD []
      = (cur ++ ps).drop ((cur ++ ps).length - st.bufferSize) ∧
    (bufferMessages st channel ps).bufferSize = st.bufferSize := by
  induction ps with
  | nil =>
    intro st cur hpos hm hlen
    refine ⟨?_, rfl⟩
    simp only [bufferMessages, hm, List.append_nil]
    have h0 : cur.length - st.bufferSize = 0 := by omega
    simp [h0]
  | cons p rest ih =>
    intro st cur hpos hm hlen
    have hstep : bufferMessages st channel (p :: rest)
        = bufferMessages (bufferMessage st channel p) channel rest := rfl
    have hm2 : (getA (bufferMessage st channel p).messageBuffer channel).getD []
        = (cur ++ [p]).drop ((cur ++ [p]).length - st.bufferSize) := by
      simp only [bufferMessage, hm, getA_setA_self, Option.getD_some]
      exact trimRing_eq (cur ++ [p]) st.bufferSize hpos
    have hlen2 : ((cur ++ [p]).drop ((cur ++ [p]).length - st.bufferSize)).length
        ≤ st.bufferSize := by
      simp only [List.length_drop]
      omega
    have hbs : (bufferMessage st channel p).bufferSize = st.bufferSize := rfl
    obtain ⟨h1, h2⟩ := ih (bufferMessage st channel p) _ (by rw [hbs]; exact hpos)
      hm2 (by rw [hbs]; exact hlen2)
    refine ⟨?_, by rw [hstep, h2, hbs]⟩
    rw [hstep, h1, hbs, lastN_absorb]
    simp

theorem broadcastChatStreams_buffer (sid : String) (chunks : List String) :
    ∀ st : WSState,
    (broadcastChatStreams st sid chunks).messageBuffer = st.messageBuffer := by
  induction chunks with
  | nil => intro st; rfl
  | cons c rest ih =>
    intro st
    exact (ih (broadcastChatStream st sid c)).trans rfl

/-- Claim C9, counterexample: three `chat_stream` events broadcast on
channel `chat:S6` are never buffered, so a late joiner requesting the
buffered events for that channel receives nothing — not the three events. -/
theorem claim_C9_counterexample :
    sendBufferedMessages
      (broadcastChatStreams emptyWSState "S6" ["e1", "e2", "e3"]) "chat:S6" = [] ∧
    (broadcastChatStreams emptyWSState "S6" ["e1", "e2", "e3"]).sent
      = [{ etype := "chat_stream", payload := "e1" },
         { etype := "chat_stream", payload := "e2" },
         { etype := "chat_stream", payload := "e3" }] := by
  decide

/-- Claim C9 (amended): `chat_stream` broadcasts leave every ring buffer
untouched, so a late joiner replays nothing for them; buffered replay
itself is correct for messages that do reach `_buffer_message` (as
`chat_message` events do, under the fixed key `"chat"`): for every `n`,
after `n` messages are buffered the replay returns exactly the last
`msgs.drop (n - 50)` of them — the most recent `min(n, 50)` payloads in
original broadcast order, which is all of them while `n ≤ 50` and the
newest 50 once eviction begins. -/
theorem claim_C9_amended (st st2 : WSState) (sid payload : String)
    (chunks : List String) (channel : String) (msgs : List String) :
    (broadcastChatStreams st sid chunks).messageBuffer = st.messageBuffer ∧
    (broadcastChatMessage st2 payload).messageBuffer
      = (bufferMessage st2 "chat" payload).messageBuffer ∧
    sendBufferedMessages (bufferMessages emptyWSState channel msgs) channel
      = msgs.drop (msgs.length - 50) ∧
    (sendBufferedMessages (bufferMessages emptyWSState channel msgs) channel).length
      = min msgs.length 50 := by
  have hspec := bufferMessages_spec channel msgs emptyWSState []
    (by decide) (by simp [emptyWSState, getA]) (by simp [emptyWSState])
  have h3 : sendBufferedMessages (bufferMessages emptyWSState channel msgs) channel
      = msgs.drop (msgs.length - 50) := by
    simpa [sendBufferedMessages, emptyWSState] using hspec.1
  refine ⟨broadcastChatStreams_buffer sid chunks st, rfl, h3, ?_⟩
  rw [h3]
  simp only [List.length_drop]
  omega

/-- Claim C9, witness: the amended statement applied with sixty buffered
messages, exercising the eviction regime of the 50-slot ring buffer. -/
theorem claim_C9_amended_witness :
    (broadcastChatStreams emptyWSState "S6" ["e1", "e2", "e3"]).messageBuffer
      = emptyWSState.messageBuffer ∧
    (broadcastChatMessage emptyWSState "m").messageBuffer
      = (bufferMessage emptyWSState "chat" "m").messageBuffer ∧
    sendBufferedMessages (bufferMessages emptyWSState "chat" (List.replicate 60 "x")) "chat"
      = (List.replicate 60 "x").drop ((List.replicate 60 "x").length - 50) ∧
    (sendBufferedMessages (bufferMessages emptyWSState "chat" (List.replicate 60 "x")) "chat").length
      = min (List.replicate 60 "x").length 50 :=
  claim_C9_amended emptyWSState emptyWSState "S6" "m" ["e1", "e2", "e3"] "chat"
    (List.replicate 60 "x")

/-! ## Claim C10: create_agent on an unknown role -/

/-- Claim C10 (confirmed): for any role string whose lowercase form is
outside the closed role set, `create_agent` still creates the agent
(collision-free name), coerces it to the `research` role, and — with no
explicit system prompt — gives it the generic `"You are a {role} agent."`
prompt, since no template matches either. -/
theorem claim_C10 (existingNames : List String) (name roleStr : String)
    (model : Option String) (capabilities : Option (List String))
    (parentId : Option String) (useTemplate : Bool) (managerModel : String)
    (hname : name ∉ existingNames)
    (hrole : strLower roleStr ∉ knownRoleValues) :
    ∃ a : AgentModel,
      createAgent existingNames name roleStr none model capabilities parentId
          useTemplate managerModel = some a ∧
      a.role = AgentRole.research ∧
      a.systemPrompt = s!"You are a {roleStr} agent." := by
  simp only [knownRoleValues, List.mem_cons, List.not_mem_nil, or_false, not_or] at hrole
  obtain ⟨h1, h2, h3, h4, h5, h6⟩ := hrole
  have ht : templatesGet (strLower roleStr) = none := by
    simp [templatesGet, h1, h2, h3, h4, h5]
  have hr : agentRoleOfString (strLower roleStr) = none := by
    simp [agentRoleOfString, h1, h2, h3, h4, h5, h6]
  unfold createAgent
  rw [if_neg hname, ht, hr]
  simp only [ite_self]
  exact ⟨_, rfl, rfl, rfl⟩

/-- Claim C10, witness: an unknown role `wizard` is accepted, coerced to
research, and given the generic prompt. -/
theorem claim_C10_witness :
    ∃ a : AgentModel,
      createAgent [] "agent-1" "wizard" none none none none true "deepseek-r1:14b"
        = some a ∧
      a.role = AgentRole.research ∧
      a.systemPrompt = "You are a wizard agent." := by
  have h := claim_C10 [] "agent-1" "wizard" none none none true "deepseek-r1:14b"
    (by simp) (by decide)
  obtain ⟨a, ha, hrole, hprompt⟩ := h
  exact ⟨a, ha, hrole, hprompt.trans (by decide)⟩

/-! ## Claim C2: non-zero exit codes are recorded but non-blocking -/

theorem runQualityChecks_gate (qenv : QualityEnv) :
    (runQualityChecks qenv).passed = true ∧ (runQualityChecks qenv).errors = [] := by
  cases hp : qenv.pytest <;> cases hr : qenv.ruff <;> cases hm : qenv.mypy <;>
    simp [runQualityChecks, hp, hr, hm]

/-- Claim C2 (confirmed): a quality-gate subprocess that exits non-zero is
recorded in `quality_checks` with `passed = false`, yet the gate always
passes (its `errors` list is never populated — the gate fails only on
hard errors, of which this code path produces none), so an attempt whose
code generation succeeded and applied changes succeeds regardless of the
check outcomes. -/
theorem claim_C2 (qenv : QualityEnv) :
    (runQualityChecks qenv).passed = true ∧
    (runQualityChecks qenv).errors = [] ∧
    (∀ r, qenv.pytest = some r → r.returncode ≠ 0 →
      ∃ c ∈ (runQualityChecks qenv).checks, c.name = "pytest" ∧ c.passed = false) ∧
    (∀ r, qenv.ruff = some r → r.returncode ≠ 0 →
      ∃ c ∈ (runQualityChecks qenv).checks, c.name = "ruff" ∧ c.passed = false) ∧
    (∀ r, qenv.mypy = some r → r.returncode ≠ 0 →
      ∃ c ∈ (runQualityChecks qenv).checks, c.name = "mypy" ∧ c.passed = false) ∧
    (∀ (gen : GenResult) (changes : Nat), gen.success = true → changes ≠ 0 →
      (implementStory gen changes qenv).success = true ∧
      (implementStory gen changes qenv).error = none ∧
      (implementStory gen changes qenv).qualityChecks = (runQualityChecks qenv).checks) := by
  refine ⟨(runQualityChecks_gate qenv).1, (runQualityChecks_gate qenv).2, ?_, ?_, ?_, ?_⟩
  · intro r hpy hne
    refine ⟨{ name := "pytest", passed := r.returncode == 0
              output := if r.stdout = "" then r.stderr.take 500 else r.stdout.take 500 },
      ?_, rfl, by rw [beq_eq_false_iff_ne]; exact hne⟩
    cases hr : qenv.ruff <;> cases hm : qenv.mypy <;>
      simp [runQualityChecks, hpy, hr, hm]
  · intro r hrf hne
    refine ⟨{ name := "ruff", passed := r.returncode == 0
              output := if r.stdout = "" then "" else r.stdout.take 500 },
      ?_, rfl, by rw [beq_eq_false_iff_ne]; exact hne⟩
    cases hp : qenv.pytest <;> cases hm : qenv.mypy <;>
      simp [runQualityChecks, hp, hrf, hm]
  · intro r hmy hne
    refine ⟨{ name := "mypy", passed := r.returncode == 0
              output := if r.stdout = "" then "" else r.stdout.take 500 },
      ?_, rfl, by rw [beq_eq_false_iff_ne]; exact hne⟩
    cases hp : qenv.pytest <;> cases hr : qenv.ruff <;>
      simp [runQualityChecks, hp, hr, hmy]
  · intro gen changes hg hc
    have hpass := (runQualityChecks_gate qenv).1
    simp [implementStory, hg, hc, hpass]

/-- Claim C2, witness: all three subprocesses exit non-zero; each is
recorded failing and the attempt still succeeds. -/
theorem claim_C2_witness :
    (runQualityChecks
      { pytest := some { returncode := 1, stdout := "1 failed", stderr := "" }
        ruff := some { returncode := 1, stdout := "E501", stderr := "" }
        mypy := some { returncode := 2, stdout := "error: bad type", stderr := "" } }).passed
      = true ∧
    (implementStory { success := true, error := none } 2
        { pytest := some { returncode := 1, stdout := "1 failed", stderr := "" }
          ruff := some { returncode := 1, stdout := "E501", stderr := "" }
          mypy := some { returncode := 2, stdout := "error: bad type", stderr := "" } }).success
      = true ∧
    (∃ c ∈ (runQualityChecks
      { pytest := some { returncode := 1, stdout := "1 failed", stderr := "" }
        ruff := some { returncode := 1, stdout := "E501", stderr := "" }
        mypy := some { returncode := 2, stdout := "error: bad type", stderr := "" } }).checks,
      c.name = "pytest" ∧ c.passed = false) := by
  have h := claim_C2
    { pytest := some { returncode := 1, stdout := "1 failed", stderr := "" }
      ruff := some { returncode := 1, stdout := "E501", stderr := "" }
      mypy := some { returncode := 2, stdout := "error: bad type", stderr := "" } }
  exact ⟨h.1, (h.2.2.2.2.2 _ 2 rfl (by decide)).1,
    h.2.2.1 _ rfl (by decide)⟩

/-! ## Claim C7: default recommendations -/

theorem foldl_recommendationStep_skip (fps : List String)
    (h : ∀ p ∈ fps, strContains p "Test failures" = false ∧
      strContains p "Syntax errors" = false ∧
      strContains p "Import errors" = false ∧
      strContains p "Type errors" = false) :
    ∀ acc, fps.foldl recommendationStep acc = acc := by
  induction fps with
  | nil => intro acc; rfl
  | cons p rest ih =>
    intro acc
    obtain ⟨h1, h2, h3, h4⟩ := h p (List.mem_cons_self p rest)
    have hstep : recommendationStep acc p = acc := by
      simp [recommendationStep, h1, h2, h3, h4]
    rw [List.foldl_cons, hstep]
    exact ih (fun q hq => h q (List.mem_cons_of_mem p hq)) acc

/-- Claim C7, counterexample: an attempt list with one generic failure
and one success derives only the bucket `Implementation errors` — none of
the four table entries — yet `reflect` emits the single
persistence-derived recommendation instead of the two defaults. -/
theorem claim_C7_counterexample :
    (reflectFailurePatterns
        [{ attempt := 1, success := false, changesMade := 0, error := some "boom"
           qualityChecks := [] },
         { attempt := 2, success := true, changesMade := 0, error := none
           qualityChecks := [] }]).all
      (fun p => !(strContains p "Test failures" || strContains p "Syntax errors" ||
        strContains p "Import errors" || strContains p "Type errors")) = true ∧
    reflectRecommendations fmtAvgFloor
        [{ attempt := 1, success := false, changesMade := 0, error := some "boom"
           qualityChecks := [] },
         { attempt := 2, success := true, changesMade := 0, error := none
           qualityChecks := [] }]
      = ["Retry with refined approach when initial attempt fails"] := by
  decide

/-- Claim C7 (amended): when the derived failure patterns match none of
the four table entries and the derived success factors carry no
persistence factor (that factor appears exactly when failures and
successes coexist), `reflect` emits exactly the two default
recommendations; the recommendations list never exceeds 5 entries for
any input. -/
theorem claim_C7_amended (fmtAvg : Nat → Nat → String)
    (attempts : List ReflectAttempt)
    (hpat : ∀ p ∈ reflectFailurePatterns attempts,
      strContains p "Test failures" = false ∧
      strContains p "Syntax errors" = false ∧
      strContains p "Import errors" = false ∧
      strContains p "Type errors" = false)
    (hper : ∀ s ∈ analyzeSuccessFactors fmtAvg (reflectSuccesses attempts)
        (reflectFailures attempts),
      strContains s "Persistence" = false) :
    reflectRecommendations fmtAvg attempts
      = ["Break complex tasks into smaller incremental changes",
         "Run quality checks after each significant change"] ∧
    ∀ (fmtAvg2 : Nat → Nat → String) (attempts2 : List ReflectAttempt),
      (reflectRecommendations fmtAvg2 attempts2).length ≤ 5 := by
  constructor
  · unfold reflectRecommendations generateRecommendations
    rw [foldl_recommendationStep_skip _ hpat]
    have hany : (analyzeSuccessFactors fmtAvg (reflectSuccesses attempts)
        (reflectFailures attempts)).any (fun s => strContains s "Persistence") = false := by
      rw [List.any_eq_false]
      intro s hs
      simp [hper s hs]
    rw [hany]
    simp
  · intro fmtAvg2 attempts2
    unfold reflectRecommendations generateRecommendations
    exact List.length_take_le 5 _

/-- Claim C7, witness: a single generic failure yields the two default
recommendations. -/
theorem claim_C7_amended_witness :
    reflectRecommendations fmtAvgFloor
        [{ attempt := 1, success := false, changesMade := 0, error := some "boom"
           qualityChecks := [] }]
      = ["Break complex tasks into smaller incremental changes",
         "Run quality checks after each significant change"] ∧
    ∀ (fmtAvg2 : Nat → Nat → String) (attempts2 : List ReflectAttempt),
      (reflectRecommendations fmtAvg2 attempts2).length ≤ 5 :=
  claim_C7_amended fmtAvgFloor
    [{ attempt := 1, success := false, changesMade := 0, error := some "boom"
       qualityChecks := [] }]
    (by decide) (by decide)

/-! ## Claim C6: failure-pattern derivation -/

theorem classifyError_eq_spec (e : String) :
    classifyError e = specClassifyError e := rfl

theorem classifyError_mem_bucketNames (e : String) :
    classifyError e ∈ bucketNames := by
  simp only [classifyError]
  split
  · simp [bucketNames]
  split
  · simp [bucketNames]
  split
  · simp [bucketNames]
  split
  · simp [bucketNames]
  split
  · simp [bucketNames]
  · simp [bucketNames]

theorem getA_bumpCount_self (m : List (String × Nat)) (k : String) :
    getA (bumpCount m k) k = some ((getA m k).getD 0 + 1) := by
  induction m with
  | nil => simp [bumpCount, getA]
  | cons hd t ih =>
    obtain ⟨k2, n⟩ := hd
    by_cases hk : k2 = k
    · subst hk
      simp [bumpCount, getA]
    · simp [bumpCount, getA, hk, ih]

theorem getA_bumpCount_ne (m : List (String × Nat)) (k k2 : String)
    (h : k ≠ k2) : getA (bumpCount m k) k2 = getA m k2 := by
  induction m with
  | nil => simp [bumpCount, getA, h]
  | cons hd t ih =>
    obtain ⟨k3, n⟩ := hd
    by_cases hk : k3 = k
    · subst hk
      simp [bumpCount, getA, h]
    · by_cases hk2 : k3 = k2
      · subst hk2
        simp [bumpCount, getA, hk]
      · simp [bumpCount, getA, hk, hk2, ih]

theorem mem_of_getA {α : Type} (m : List (String × α)) (k : String) (v : α)
    (h : getA m k = some v) : (k, v) ∈ m := by
  induction m with
  | nil => simp [getA] at h
  | cons hd t ih =>
    obtain ⟨k2, w⟩ := hd
    by_cases hk : k2 = k
    · subst hk
      have hv : w = v := by simpa [getA] using h
      subst hv
      exact List.mem_cons_self _ _
    · simp only [getA, if_neg hk] at h
      exact List.mem_cons_of_mem _ (ih h)

theorem getA_of_mem_nodup {α : Type} (m : List (String × α)) (k : String) (v : α)
    (hnd : (m.map Prod.fst).Nodup) (hm : (k, v) ∈ m) : getA m k = some v := by
  induction m with
  | nil => simp at hm
  | cons hd t ih =>
    obtain ⟨k2, w⟩ := hd
    simp only [List.map_cons, List.nodup_cons] at hnd
    rcases List.mem_cons.mp hm with h1 | h2
    · have hk : k = k2 := congrArg Prod.fst h1
      have hv : v = w := congrArg Prod.snd h1
      subst hk
      simp [getA, hv]
    · have hk : k2 ≠ k := by
        intro he
        subst he
        exact hnd.1 (List.mem_map.mpr ⟨(k2, v), h2, rfl⟩)
      simp only [getA, if_neg hk]
      exact ih hnd.2 h2

theorem keys_bumpCount_subset (m : List (String × Nat)) (k k2 : String)
    (h : k2 ∈ (bumpCount m k).map Prod.fst) : k2 ∈ m.map Prod.fst ∨ k2 = k := by
  induction m with
  | nil =>
    simp [bumpCount] at h
    exact Or.inr h
  | cons hd t ih =>
    obtain ⟨k3, n⟩ := hd
    by_cases hk : k3 = k
    · subst hk
      have hb : bumpCount ((k3, n) :: t) k3 = (k3, n + 1) :: t := by
        simp [bumpCount]
      rw [hb] at h
      simp at h ⊢
      tauto
    · have hb : bumpCount ((k3, n) :: t) k = (k3, n) :: bumpCount t k := by
        simp [bumpCount, hk]
      rw [hb] at h
      simp only [List.map_cons, List.mem_cons] at h ⊢
      rcases h with h | h
      · exact Or.inl (Or.inl h)
      · rcases ih h with h2 | h2
        · exact Or.inl (Or.inr h2)
        · exact Or.inr h2

theorem nodup_keys_bumpCount (m : List (String × Nat)) (k : String)
    (h : (m.map Prod.fst).Nodup) : ((bumpCount m k).map Prod.fst).Nodup := by
  induction m with
  | nil => simp [bumpCount]
  | cons hd t ih =>
    obtain ⟨k3, n⟩ := hd
    simp only [List.map_cons, List.nodup_cons] at h
    by_cases hk : k3 = k
    · subst hk
      have hb : bumpCount ((k3, n) :: t) k3 = (k3, n + 1) :: t := by
        simp [bumpCount]
      rw [hb]
      simp only [List.map_cons, List.nodup_cons]
      exact ⟨h.1, h.2⟩
    · have hb : bumpCount ((k3, n) :: t) k = (k3, n) :: bumpCount t k := by
        simp [bumpCount, hk]
      rw [hb]
      simp only [List.map_cons, List.nodup_cons]
      refine ⟨?_, ih h.2⟩
      intro hmem
      rcases keys_bumpCount_subset t k k3 hmem with h2 | h2
      · exact h.1 h2
      · exact hk h2

theorem getA_foldl_bumpCount (ks : List String) :
    ∀ (m : List (String × Nat)) (k : String),
    ((getA (ks.foldl bumpCount m) k).getD 0 = (getA m k).getD 0 + ks.count k) ∧
    (getA (ks.foldl bumpCount m) k = none ↔ (getA m k = none ∧ k ∉ ks)) := by
  induction ks with
  | nil =>
    intro m k
    simp
  | cons k0 rest ih =>
    intro m k
    rw [List.foldl_cons]
    by_cases hk : k = k0
    · subst hk
      obtain ⟨ih1, ih2⟩ := ih (bumpCount m k) k
      constructor
      · rw [ih1, getA_bumpCount_self]
        simp only [Option.getD_some, List.count_cons_self]
        omega
      · rw [ih2, getA_bumpCount_self]
        simp
    · obtain ⟨ih1, ih2⟩ := ih (bumpCount m k0) k
      have hne : k0 ≠ k := fun he => hk he.symm
      constructor
      · rw [ih1, getA_bumpCount_ne m k0 k hne, List.count_cons_of_ne hk]
      · rw [ih2, getA_bumpCount_ne m k0 k hne]
        simp [hk]

theorem nodup_keys_foldl_bumpCount (ks : List String) :
    ∀ m, (m.map Prod.fst).Nodup → ((ks.foldl bumpCount m).map Prod.fst).Nodup := by
  induction ks with
  | nil => intro m h; exact h
  | cons k0 rest ih =>
    intro m h
    exact ih _ (nodup_keys_bumpCount m k0 h)

theorem count_classify_eq_bucketCount (failures : List ReflectAttempt) (b : String) :
    (classifiedKeys failures).count b = bucketCount failures b := by
  unfold classifiedKeys bucketCount
  rw [List.count_eq_countP, List.countP_map, List.countP_eq_length_filter]
  have hfun : ((fun x => x == b) ∘ fun f => classifyError (errorOf f))
      = (fun f => decide (classifyError (errorOf f) = b)) := by
    funext f
    by_cases h : classifyError (errorOf f) = b <;> simp [Function.comp, h]
  rw [hfun]

theorem errorCountsOf_eq_foldl (failures : List ReflectAttempt) :
    errorCountsOf failures = (classifiedKeys failures).foldl bumpCount [] := by
  unfold errorCountsOf classifiedKeys
  rw [List.foldl_map]

theorem getA_errorCountsOf_getD (failures : List ReflectAttempt) (k : String) :
    (getA (errorCountsOf failures) k).getD 0 = bucketCount failures k := by
  rw [errorCountsOf_eq_foldl, ← count_classify_eq_bucketCount]
  have h := (getA_foldl_bumpCount (classifiedKeys failures) [] k).1
  simpa [getA] using h

theorem getA_errorCountsOf_none (failures : List ReflectAttempt) (k : String) :
    getA (errorCountsOf failures) k = none ↔ k ∉ classifiedKeys failures := by
  rw [errorCountsOf_eq_foldl]
  have h := (getA_foldl_bumpCount (classifiedKeys failures) [] k).2
  simpa [getA] using h

theorem nodup_keys_errorCountsOf (failures : List ReflectAttempt) :
    ((errorCountsOf failures).map Prod.fst).Nodup := by
  rw [errorCountsOf_eq_foldl]
  exact nodup_keys_foldl_bumpCount (classifiedKeys failures) [] (by simp)

theorem analyzeFailurePatterns_eq (failures : List ReflectAttempt)
    (hemp : ¬failures.isEmpty = true) :
    analyzeFailurePatterns failures
      = (((errorCountsOf failures).insertionSort countGE).filter
          (fun p => 0 < p.2)).map (fun p => patternLine p.1 p.2) := by
  simp only [analyzeFailurePatterns, hemp, if_false]
  rfl

/-- Claim C6 (confirmed): `reflect` derives `failure_patterns` by
classifying each failed attempt with the case-insensitive substring chain
in the stated priority order (the source classifier coincides with the
spec-modelled one), and the emitted lines are exactly
`"{bucket} occurred in {n} attempt(s)"` for each bucket with a positive
count `n`, each bucket at most once, sorted by `n` descending. -/
theorem claim_C6 (failures : List ReflectAttempt) :
    (∀ e, classifyError e = specClassifyError e) ∧
    ∃ pairs : List (String × Nat),
      analyzeFailurePatterns failures = pairs.map (fun p => patternLine p.1 p.2) ∧
      pairs.Pairwise countGE ∧
      (pairs.map Prod.fst).Nodup ∧
      (∀ p ∈ pairs, p.1 ∈ bucketNames ∧ p.2 = bucketCount failures p.1 ∧ 0 < p.2) ∧
      (∀ b, 0 < bucketCount failures b → b ∈ pairs.map Prod.fst) := by
  refine ⟨fun e => classifyError_eq_spec e, ?_⟩
  by_cases hemp : failures.isEmpty
  · refine ⟨[], by simp [analyzeFailurePatterns, hemp], by simp, by simp, by simp, ?_⟩
    intro b hb
    exfalso
    have hnil : failures = [] := List.isEmpty_iff.mp hemp
    subst hnil
    simp [bucketCount] at hb
  · have hperm : ((errorCountsOf failures).insertionSort countGE).Perm
        (errorCountsOf failures) :=
      List.perm_insertionSort countGE (errorCountsOf failures)
    have hsortedpw : ((errorCountsOf failures).insertionSort countGE).Pairwise countGE :=
      List.sorted_insertionSort countGE (errorCountsOf failures)
    refine ⟨((errorCountsOf failures).insertionSort countGE).filter (fun p => 0 < p.2),
      analyzeFailurePatterns_eq failures hemp, hsortedpw.filter _, ?_, ?_, ?_⟩
    · refine List.Nodup.sublist ?_
        (((hperm.map Prod.fst).nodup_iff).mpr (nodup_keys_errorCountsOf failures))
      exact List.Sublist.map Prod.fst (List.filter_sublist _)
    · intro p hp
      have hmf := List.mem_filter.mp hp
      have hpos : 0 < p.2 := by simpa using hmf.2
      have hpc : p ∈ errorCountsOf failures := hperm.mem_iff.mp hmf.1
      have hgp : getA (errorCountsOf failures) p.1 = some p.2 := by
        obtain ⟨k, v⟩ := p
        exact getA_of_mem_nodup _ k v (nodup_keys_errorCountsOf failures) hpc
      have hv : p.2 = bucketCount failures p.1 := by
        have h := getA_errorCountsOf_getD failures p.1
        rw [hgp] at h
        simpa using h
      have hmemks : p.1 ∈ classifiedKeys failures := by
        by_contra hnk
        have h := (getA_errorCountsOf_none failures p.1).mpr hnk
        rw [hgp] at h
        exact Option.noConfusion h
      have hbn : p.1 ∈ bucketNames := by
        obtain ⟨f, _, hf⟩ := List.mem_map.mp hmemks
        rw [← hf]
        exact classifyError_mem_bucketNames (errorOf f)
      exact ⟨hbn, hv, hpos⟩
    · intro b hb
      have hbks : b ∈ classifiedKeys failures := by
        rw [← count_classify_eq_bucketCount failures b] at hb
        exact List.count_pos_iff.mp hb
      have hgb : getA (errorCountsOf failures) b ≠ none := by
        intro hn
        exact ((getA_errorCountsOf_none failures b).mp hn) hbks
      obtain ⟨v, hv⟩ := Option.ne_none_iff_exists.mp hgb
      have hvmem : (b, v) ∈ errorCountsOf failures := mem_of_getA _ b v hv.symm
      have hvpos : 0 < v := by
        have h := getA_errorCountsOf_getD failures b
        rw [← hv] at h
        simp at h
        omega
      have hmemsorted : (b, v) ∈ (errorCountsOf failures).insertionSort countGE :=
        hperm.mem_iff.mpr hvmem
      have hmemfilter : (b, v) ∈ ((errorCountsOf failures).insertionSort countGE).filter
          (fun p => 0 < p.2) :=
        List.mem_filter.mpr ⟨hmemsorted, by simpa using hvpos⟩
      exact List.mem_map.mpr ⟨(b, v), hmemfilter, rfl⟩

/-- Claim C6, witness: the characterization applied to a concrete mix of
import, test and repeated-import failures. -/
theorem claim_C6_witness :
    (∀ e, classifyError e = specClassifyError e) ∧
    ∃ pairs : List (String × Nat),
      analyzeFailurePatterns
          [{ attempt := 1, success := false, changesMade := 0
             error := some "ImportError: no module named x", qualityChecks := [] },
           { attempt := 2, success := false, changesMade := 0
             error := some "pytest found a failure", qualityChecks := [] },
           { attempt := 3, success := false, changesMade := 0
             error := some "import failed again", qualityChecks := [] }]
        = pairs.map (fun p => patternLine p.1 p.2) ∧
      pairs.Pairwise countGE ∧
      (pairs.map Prod.fst).Nodup ∧
      (∀ p ∈ pairs, p.1 ∈ bucketNames ∧
        p.2 = bucketCount
          [{ attempt := 1, success := false, changesMade := 0
             error := some "ImportError: no module named x", qualityChecks := [] },
           { attempt := 2, success := false, changesMade := 0
             error := some "pytest found a failure", qualityChecks := [] },
           { attempt := 3, success := false, changesMade := 0
             error := some "import failed again", qualityChecks := [] }] p.1 ∧
        0 < p.2) ∧
      (∀ b, 0 < bucketCount
          [{ attempt := 1, success := false, changesMade := 0
             error := some "ImportError: no module named x", qualityChecks := [] },
           { attempt := 2, success := false, changesMade := 0
             error := some "pytest found a failure", qualityChecks := [] },
           { attempt := 3, success := false, changesMade := 0
             error := some "import failed again", qualityChecks := [] }] b →
        b ∈ pairs.map Prod.fst) :=
  claim_C6
    [{ attempt := 1, success := false, changesMade := 0
       error := some "ImportError: no module named x", qualityChecks := [] },
     { attempt := 2, success := false, changesMade := 0
       error := some "pytest found a failure", qualityChecks := [] },
     { attempt := 3, success := false, changesMade := 0
       error := some "import failed again", qualityChecks := [] }]

/-! ## Claim C3: stories after a finished run -/

theorem findIdxQ_some_spec {α : Type} (p : α → Bool) :
    ∀ (l : List α) (start i : Nat), List.findIdx? p l start = some i →
    start ≤ i ∧ ∃ a, l[i - start]? = some a ∧ p a = true := by
  intro l
  induction l with
  | nil => intro start i h; simp [List.findIdx?] at h
  | cons x t ih =>
    intro start i h
    rw [List.findIdx?_cons] at h
    by_cases hp : p x
    · simp only [hp, if_true, Option.some.injEq] at h
      subst h
      exact ⟨Nat.le_refl _, x, by simp, hp⟩
    · simp only [hp, Bool.false_eq_true, if_false] at h
      obtain ⟨hle, a, ha, hpa⟩ := ih (start + 1) i h
      refine ⟨by omega, a, ?_, hpa⟩
      have hidx : i - start = (i - (start + 1)) + 1 := by omega
      rw [hidx]
      simpa using ha

theorem nextStoryIdx_some (stories : List UserStory) (i : Nat)
    (h : nextStoryIdx stories = some i) :
    ∃ s, stories[i]? = some s ∧ isIncomplete s = true := by
  unfold nextStoryIdx at h
  cases hmin : ((stories.filter isIncomplete).map (fun s => s.priority)).min? with
  | none => rw [hmin] at h; exact absurd h (by simp)
  | some p =>
      rw [hmin] at h
      obtain ⟨_, a, ha, hpa⟩ := findIdxQ_some_spec _ stories 0 i h
      rw [Nat.sub_zero] at ha
      refine ⟨a, ha, ?_⟩
      have hpa2 : isIncomplete a = true ∧ (a.priority == p) = true := by
        simpa using hpa
      exact hpa2.1

theorem nextStoryIdx_none_not_incomplete (stories : List UserStory)
    (h : nextStoryIdx stories = none) :
    ∀ s ∈ stories, isIncomplete s = false := by
  unfold nextStoryIdx at h
  cases hmin : ((stories.filter isIncomplete).map (fun s => s.priority)).min? with
  | none =>
      rw [List.min?_eq_none_iff] at hmin
      rw [List.map_eq_nil_iff] at hmin
      intro s hs
      have := List.filter_eq_nil_iff.mp hmin s hs
      simpa using this
  | some p =>
      rw [hmin] at h
      rw [List.findIdx?_eq_none_iff] at h
      have hpmem : p ∈ (stories.filter isIncomplete).map (fun s => s.priority) :=
        List.min?_mem (fun a b => min_choice a b) hmin
      obtain ⟨s, hsfil, hsp⟩ := List.mem_map.mp hpmem
      obtain ⟨hsmem, hsinc⟩ := List.mem_filter.mp hsfil
      have := h s hsmem
      rw [hsinc, ← hsp] at this
      simp at this

theorem nextStoryIdx_none_terminal (stories : List UserStory)
    (h : nextStoryIdx stories = none) :
    ∀ s ∈ stories, s.status = StoryStatus.completed ∨
      s.status = StoryStatus.failed ∨ s.status = StoryStatus.skipped := by
  intro s hs
  have hni := nextStoryIdx_none_not_incomplete stories h s hs
  cases hst : s.status <;> simp [isIncomplete, hst] at hni ⊢

theorem mem_of_getElem_some {α : Type} {l : List α} {i : Nat} {a : α}
    (h : l[i]? = some a) : a ∈ l := by
  obtain ⟨hlt, hget⟩ := List.getElem?_eq_some_iff.mp h
  exact hget ▸ List.getElem_mem hlt

theorem ralphLoop_attempts (env : RalphEnv) (maxIterations maxRetries : Nat) :
    ∀ (fuel : Nat) (st : RalphState),
    (∀ s ∈ st.stories, s.attempts ≤ maxRetries) →
    ∀ s ∈ (ralphLoop env maxIterations maxRetries fuel st).stories,
      s.attempts ≤ maxRetries := by
  intro fuel
  induction fuel with
  | zero => intro st h; exact h
  | succ fuel ih =>
    intro st h
    rw [ralphLoop]
    split
    · split
      · exact h
      · rename_i i hidx
        split
        · exact h
        · rename_i s hs
          have hsmem : s ∈ st.stories := mem_of_getElem_some hs
          split
          · rename_i hover
            apply ih
            intro t ht
            rcases List.mem_or_eq_of_mem_set ht with ht2 | ht2
            · exact h t ht2
            · subst ht2; exact h s hsmem
          · rename_i hunder
            have hlt : s.attempts < maxRetries := by omega
            dsimp only
            split
            · apply ih
              intro t ht
              rcases List.mem_or_eq_of_mem_set ht with ht2 | ht2
              · exact h t ht2
              · subst ht2; simpa using hlt
            · apply ih
              intro t ht
              rcases List.mem_or_eq_of_mem_set ht with ht2 | ht2
              · exact h t ht2
              · subst ht2; simpa using hlt
    · exact h

theorem filterLen_set (p : UserStory → Bool) :
    ∀ (l : List UserStory) (i : Nat) (s v : UserStory), l[i]? = some s →
    ((l.set i v).filter p).length + (if p s then 1 else 0)
      = (l.filter p).length + (if p v then 1 else 0) := by
  intro l
  induction l with
  | nil => intro i s v h; simp at h
  | cons x t ih =>
    intro i s v h
    cases i with
    | zero =>
      have hx : x = s := by simpa using h
      subst hx
      cases hps : p x <;> cases hpv : p v <;>
        simp [List.set_cons_zero, List.filter_cons, hps, hpv]
    | succ j =>
      have hj : t[j]? = some s := by simpa using h
      have hrec := ih j s v hj
      rw [List.set_cons_succ]
      cases hpx : p x <;> simp [List.filter_cons, hpx] <;> omega

theorem ralphLoop_done (env : RalphEnv) (maxIterations maxRetries : Nat) :
    ∀ (fuel : Nat) (st : RalphState),
    (maxIterations - st.iteration) + (st.stories.filter isIncomplete).length ≤ fuel →
    ralphDone maxIterations (ralphLoop env maxIterations maxRetries fuel st) := by
  intro fuel
  induction fuel with
  | zero =>
    intro st hf
    rw [ralphLoop]
    exact Or.inl (Nat.sub_eq_zero_iff_le.mp (by omega))
  | succ fuel ih =>
    intro st hf
    rw [ralphLoop]
    split
    · rename_i hiter
      split
      · rename_i hnone
        exact Or.inr hnone
      · rename_i i hidx
        split
        · rename_i hget
          obtain ⟨s, hs, hinc⟩ := nextStoryIdx_some st.stories i hidx
          rw [hget] at hs
          exact absurd hs (by simp)
        · rename_i s2 hs
          obtain ⟨s3, hs3, hinc3⟩ := nextStoryIdx_some st.stories i hidx
          rw [hs] at hs3
          have hseq : s3 = s2 := (Option.some.inj hs3).symm
          subst hseq
          split
          · apply ih
            have hflt := filterLen_set isIncomplete st.stories i s3
              { s3 with status := StoryStatus.failed } hs
            have hfail : isIncomplete { s3 with status := StoryStatus.failed } = false := rfl
            rw [hinc3, hfail] at hflt
            simp at hflt
            dsimp only
            omega
          · dsimp only
            split
            · apply ih
              have hflt := filterLen_set isIncomplete st.stories i s3
                { s3 with
                    status := StoryStatus.completed,
                    attempts := s3.attempts + 1,
                    completedAtSet := true,
                    commitSha := env.commitShaAt (st.iteration + 1) } hs
              have hdone : isIncomplete
                  { s3 with
                      status := StoryStatus.completed,
                      attempts := s3.attempts + 1,
                      completedAtSet := true,
                      commitSha := env.commitShaAt (st.iteration + 1) } = false := rfl
              rw [hinc3, hdone] at hflt
              simp at hflt
              dsimp only
              omega
            · apply ih
              have hflt := filterLen_set isIncomplete st.stories i s3
                { s3 with
                    status := StoryStatus.inProgress,
                    attempts := s3.attempts + 1,
                    lastError := (env.implOutcome (st.iteration + 1)
                      { s3 with
                          status := StoryStatus.inProgress,
                          attempts := s3.attempts + 1 }).error } hs
              have hstill : isIncomplete
                  { s3 with
                      status := StoryStatus.inProgress,
                      attempts := s3.attempts + 1,
                      lastError := (env.implOutcome (st.iteration + 1)
                        { s3 with
                            status := StoryStatus.inProgress,
                            attempts := s3.attempts + 1 }).error } = true := rfl
              rw [hinc3, hstill] at hflt
              simp at hflt
              dsimp only
              omega
    · rename_i hiter
      exact Or.inl (by omega)

/-- Claim C3, counterexample: with `max_iterations = 0` the loop returns
immediately and the story is left `not_started`, a status outside
`{completed, failed, skipped}`; the claim fails for this choice of
`max_iterations`. -/
theorem claim_C3_counterexample :
    ((ralphRun
        { implOutcome := fun _ _ =>
            { success := false, error := some "No code changes applied"
              changesMade := 0, qualityChecks := [] }
          commitShaAt := fun _ => none }
        0 3
        [{ id := "US-001", title := "T", priority := 1, dependencies := []
           status := StoryStatus.notStarted, attempts := 0, lastError := none
           completedAtSet := false, commitSha := none }]).stories.map
        (fun s => s.status)) = [StoryStatus.notStarted] ∧
    ralphDone 0 (ralphRun
        { implOutcome := fun _ _ =>
            { success := false, error := some "No code changes applied"
              changesMade := 0, qualityChecks := [] }
          commitShaAt := fun _ => none }
        0 3
        [{ id := "US-001", title := "T", priority := 1, dependencies := []
           status := StoryStatus.notStarted, attempts := 0, lastError := none
           completedAtSet := false, commitSha := none }]) ∧
    ¬(StoryStatus.notStarted = StoryStatus.completed ∨
      StoryStatus.notStarted = StoryStatus.failed ∨
      StoryStatus.notStarted = StoryStatus.skipped) := by
  exact ⟨rfl, Or.inl (Nat.zero_le _), by decide⟩

/-- Claim C3 (amended): a finished run always satisfies the attempts
bound (`attempts ≤ max_retries_per_story`, for stories that start within
the bound), and the status clause `status ∈ {completed, failed, skipped}`
holds when the loop exits because no eligible story remains — but not
when it stops by exhausting `max_iterations`, where stories may stay
`not_started` or `in_progress`. -/
theorem claim_C3_amended (env : RalphEnv) (maxIterations maxRetries : Nat)
    (stories : List UserStory)
    (hatt : ∀ s ∈ stories, s.attempts ≤ maxRetries) :
    ralphDone maxIterations (ralphRun env maxIterations maxRetries stories) ∧
    (∀ s ∈ (ralphRun env maxIterations maxRetries stories).stories,
      s.attempts ≤ maxRetries) ∧
    (nextStoryIdx (ralphRun env maxIterations maxRetries stories).stories = none →
      ∀ s ∈ (ralphRun env maxIterations maxRetries stories).stories,
        s.status = StoryStatus.completed ∨ s.status = StoryStatus.failed ∨
          s.status = StoryStatus.skipped) := by
  refine ⟨?_, ?_, ?_⟩
  · apply ralphLoop_done
    unfold initRalphState ralphFuel
    have := List.length_filter_le isIncomplete stories
    simp only []
    omega
  · exact ralphLoop_attempts env maxIterations maxRetries _ _ hatt
  · intro hnone
    exact nextStoryIdx_none_terminal _ hnone

/-- Claim C3, witness: the amended statement at a concrete
always-failing run with budget to spare. -/
theorem claim_C3_amended_witness :
    ralphDone 100 (ralphRun
      { implOutcome := fun _ _ =>
          { success := false, error := some "No code changes applied"
            changesMade := 0, qualityChecks := [] }
        commitShaAt := fun _ => none } 100 3
      [{ id := "US-001", title := "T", priority := 1, dependencies := []
         status := StoryStatus.notStarted, attempts := 0, lastError := none
         completedAtSet := false, commitSha := none }]) ∧
    (∀ s ∈ (ralphRun
      { implOutcome := fun _ _ =>
          { success := false, error := some "No code changes applied"
            changesMade := 0, qualityChecks := [] }
        commitShaAt := fun _ => none } 100 3
      [{ id := "US-001", title := "T", priority := 1, dependencies := []
         status := StoryStatus.notStarted, attempts := 0, lastError := none
         completedAtSet := false, commitSha := none }]).stories,
      s.attempts ≤ 3) ∧
    (nextStoryIdx (ralphRun
      { implOutcome := fun _ _ =>
          { success := false, error := some "No code changes applied"
            changesMade := 0, qualityChecks := [] }
        commitShaAt := fun _ => none } 100 3
      [{ id := "US-001", title := "T", priority := 1, dependencies := []
         status := StoryStatus.notStarted, attempts := 0, lastError := none
         completedAtSet := false, commitSha := none }]).stories = none →
      ∀ s ∈ (ralphRun
        { implOutcome := fun _ _ =>
            { success := false, error := some "No code changes applied"
              changesMade := 0, qualityChecks := [] }
          commitShaAt := fun _ => none } 100 3
        [{ id := "US-001", title := "T", priority := 1, dependencies := []
           status := StoryStatus.notStarted, attempts := 0, lastError := none
           completedAtSet := false, commitSha := none }]).stories,
        s.status = StoryStatus.completed ∨ s.status = StoryStatus.failed ∨
          s.status = StoryStatus.skipped) :=
  claim_C3_amended
    { implOutcome := fun _ _ =>
        { success := false, error := some "No code changes applied"
          changesMade := 0, qualityChecks := [] }
      commitShaAt := fun _ => none } 100 3
    [{ id := "US-001", title := "T", priority := 1, dependencies := []
       status := StoryStatus.notStarted, attempts := 0, lastError := none
       completedAtSet := false, commitSha := none }]
    (by decide)

/-! ## Claim C1: reflections per story -/

theorem set_getElemQ_self {α : Type} :
    ∀ (l : List α) (i : Nat) (a : α), l[i]? = some a → l.set i a = l := by
  intro l
  induction l with
  | nil => intro i a h; simp at h
  | cons x t ih =>
    intro i a h
    cases i with
    | zero =>
      have hx : x = a := by simpa using h
      subst hx
      simp
    | succ j =>
      have hj : t[j]? = some a := by simpa using h
      rw [List.set_cons_succ, ih j a hj]

theorem ids_set_id (stories : List UserStory) (i : Nat) (s v : UserStory)
    (hs : stories[i]? = some s) (hid : v.id = s.id) :
    (stories.set i v).map (fun t => t.id) = stories.map (fun t => t.id) := by
  rw [List.map_set]
  simp only [hid]
  apply set_getElemQ_self
  rw [List.getElem?_map, hs]
  rfl

theorem ids_ne_of_nodup (stories : List UserStory) (i j : Nat) (s t : UserStory)
    (hnd : (stories.map (fun u => u.id)).Nodup) (hi : stories[i]? = some s)
    (hj : stories[j]? = some t) (hij : i ≠ j) : s.id ≠ t.id := by
  obtain ⟨hilt, hig⟩ := List.getElem?_eq_some_iff.mp hi
  obtain ⟨hjlt, hjg⟩ := List.getElem?_eq_some_iff.mp hj
  intro he
  apply hij
  have hmi : i < (stories.map (fun u => u.id)).length := by simpa using hilt
  have hmj : j < (stories.map (fun u => u.id)).length := by simpa using hjlt
  refine (@List.Nodup.getElem_inj_iff _ _ hnd i hmi j hmj).mp ?_
  rw [List.getElem_map, List.getElem_map, hig, hjg, he]

theorem nodup_ids_set (stories : List UserStory) (i : Nat) (s v : UserStory)
    (hs : stories[i]? = some s) (hid : v.id = s.id)
    (hnd : (stories.map (fun t => t.id)).Nodup) :
    ((stories.set i v).map (fun t => t.id)).Nodup := by
  rw [ids_set_id stories i s v hs hid]
  exact hnd

theorem ralphLoop_reflections (env : RalphEnv) (maxIterations maxRetries : Nat) :
    ∀ (fuel : Nat) (st : RalphState),
    ((st.stories.map (fun s => s.id)).Nodup) →
    (∀ (i : Nat) (s : UserStory), st.stories[i]? = some s →
      (reflectionsFor st s.id).length
        = (if s.status = StoryStatus.completed then 1 else 0)) →
    (∀ r ∈ st.reflections, r.finalSuccess = true) →
    (∀ (i : Nat) (s : UserStory),
      (ralphLoop env maxIterations maxRetries fuel st).stories[i]? = some s →
      (reflectionsFor (ralphLoop env maxIterations maxRetries fuel st) s.id).length
        = (if s.status = StoryStatus.completed then 1 else 0)) ∧
    (∀ r ∈ (ralphLoop env maxIterations maxRetries fuel st).reflections,
      r.finalSuccess = true) := by
  intro fuel
  induction fuel with
  | zero => intro st hnd hinv htrue; exact ⟨hinv, htrue⟩
  | succ fuel ih =>
    intro st hnd hinv htrue
    rw [ralphLoop]
    split
    · split
      · exact ⟨hinv, htrue⟩
      · rename_i i hidx
        split
        · exact ⟨hinv, htrue⟩
        · rename_i s3 hs
          obtain ⟨s4, hs4, hinc4⟩ := nextStoryIdx_some st.stories i hidx
          rw [hs] at hs4
          have hseq : s4 = s3 := (Option.some.inj hs4).symm
          subst hseq
          have hlen := (List.getElem?_eq_some_iff.mp hs).1
          have hnotc : s4.status ≠ StoryStatus.completed := by
            intro hcs
            rw [isIncomplete, hcs] at hinc4
            simp at hinc4
          have hcount0 : (reflectionsFor st s4.id).length = 0 := by
            have h := hinv i s4 hs
            rw [if_neg hnotc] at h
            exact h
          split
          · -- retry budget exhausted: story marked failed, no reflection
            apply ih
            · exact nodup_ids_set st.stories i s4 _ hs rfl hnd
            · intro j t ht
              by_cases hij : j = i
              · subst hij
                rw [List.getElem?_set_self (by simpa using hlen)] at ht
                have htv : t = { s4 with status := StoryStatus.failed } :=
                  (Option.some.inj ht).symm
                subst htv
                simpa [reflectionsFor] using hcount0
              · rw [List.getElem?_set_ne (fun he => hij he.symm)] at ht
                have h := hinv j t ht
                simpa [reflectionsFor] using h
            · exact htrue
          · dsimp only
            split
            · -- success: story completed, one reflection appended
              rename_i hsucc
              apply ih
              · exact nodup_ids_set st.stories i s4 _ hs rfl hnd
              · intro j t ht
                by_cases hij : j = i
                · subst hij
                  rw [List.getElem?_set_self (by simpa using hlen)] at ht
                  have htv := (Option.some.inj ht).symm
                  subst htv
                  simp only [reflectionsFor, List.filter_append]
                  have hc0 : (reflectionsFor st s4.id).length = 0 := hcount0
                  simp only [reflectionsFor] at hc0
                  simp [hc0, List.length_eq_zero.mp hc0]
                · rw [List.getElem?_set_ne (fun he => hij he.symm)] at ht
                  have hne : s4.id ≠ t.id :=
                    ids_ne_of_nodup st.stories i j s4 t hnd hs ht (fun he => hij he.symm)
                  have h := hinv j t ht
                  simp only [reflectionsFor, List.filter_append] at h ⊢
                  simpa [hne] using h
              · intro r hr
                simp only at hr
                rcases List.mem_append.mp hr with hr2 | hr2
                · exact htrue r hr2
                · have : r = { storyId := s4.id, totalAttempts := s4.attempts + 1
                               finalSuccess := true
                               allAttempts := attemptsFor
                                 (st.storyAttempts ++
                                   [(s4.id,
                                     { attempt := s4.attempts + 1
                                       success := (env.implOutcome (st.iteration + 1)
                                         { s4 with status := StoryStatus.inProgress
                                                   attempts := s4.attempts + 1 }).success
                                       changesMade := (env.implOutcome (st.iteration + 1)
                                         { s4 with status := StoryStatus.inProgress
                                                   attempts := s4.attempts + 1 }).changesMade
                                       error := (env.implOutcome (st.iteration + 1)
                                         { s4 with status := StoryStatus.inProgress
                                                   attempts := s4.attempts + 1 }).error
                                       qualityChecks := (env.implOutcome (st.iteration + 1)
                                         { s4 with status := StoryStatus.inProgress
                                                   attempts := s4.attempts + 1 }).qualityChecks })])
                                 s4.id
                               commitSha := env.commitShaAt (st.iteration + 1) } := by
                    simpa using hr2
                  rw [this]
            · -- failed attempt: story back in progress, no reflection
              apply ih
              · exact nodup_ids_set st.stories i s4 _ hs rfl hnd
              · intro j t ht
                by_cases hij : j = i
                · subst hij
                  rw [List.getElem?_set_self (by simpa using hlen)] at ht
                  have htv := (Option.some.inj ht).symm
                  subst htv
                  simpa [reflectionsFor] using hcount0
                · rw [List.getElem?_set_ne (fun he => hij he.symm)] at ht
                  have h := hinv j t ht
                  simpa [reflectionsFor] using h
              · exact htrue
    · exact ⟨hinv, htrue⟩

/-- Claim C1, counterexample: a story that exhausts its retries (three
failing attempts, then the over-budget check marks it failed) produces
three diary entries and NO Reflection at all — not one Reflection with
`final_success = false`; `_reflect_on_story` is only invoked on the
success path. -/
theorem claim_C1_counterexample :
    ((ralphRun
        { implOutcome := fun _ _ =>
            { success := false, error := some "No code changes applied"
              changesMade := 0, qualityChecks := [] }
          commitShaAt := fun _ => none }
        100 3
        [{ id := "US-001", title := "T", priority := 1, dependencies := []
           status := StoryStatus.notStarted, attempts := 0, lastError := none
           completedAtSet := false, commitSha := none }]).stories.map
        (fun s => (s.status, s.attempts))) = [(StoryStatus.failed, 3)] ∧
    (ralphRun
        { implOutcome := fun _ _ =>
            { success := false, error := some "No code changes applied"
              changesMade := 0, qualityChecks := [] }
          commitShaAt := fun _ => none }
        100 3
        [{ id := "US-001", title := "T", priority := 1, dependencies := []
           status := StoryStatus.notStarted, attempts := 0, lastError := none
           completedAtSet := false, commitSha := none }]).reflections = [] ∧
    (ralphRun
        { implOutcome := fun _ _ =>
            { success := false, error := some "No code changes applied"
              changesMade := 0, qualityChecks := [] }
          commitShaAt := fun _ => none }
        100 3
        [{ id := "US-001", title := "T", priority := 1, dependencies := []
           status := StoryStatus.notStarted, attempts := 0, lastError := none
           completedAtSet := false, commitSha := none }]).diaryLog.length = 3 := by
  decide

/-- Claim C1 (amended): with the memory client reachable, every story the
loop completes produces exactly one Reflection and that Reflection always
carries `final_success = true`; a story that finishes failed (retry
exhaustion included) produces no Reflection. -/
theorem claim_C1_amended (env : RalphEnv) (maxIterations maxRetries : Nat)
    (stories : List UserStory)
    (hnd : (stories.map (fun s => s.id)).Nodup)
    (hinit : ∀ s ∈ stories, s.status ≠ StoryStatus.completed) :
    (∀ s ∈ (ralphRun env maxIterations maxRetries stories).stories,
      (reflectionsFor (ralphRun env maxIterations maxRetries stories) s.id).length
        = (if s.status = StoryStatus.completed then 1 else 0)) ∧
    (∀ r ∈ (ralphRun env maxIterations maxRetries stories).reflections,
      r.finalSuccess = true) := by
  have h := ralphLoop_reflections env maxIterations maxRetries
    (ralphFuel maxIterations stories) (initRalphState stories)
    (by simpa [initRalphState] using hnd)
    (by
      intro i s hs
      have hmem : s ∈ stories :=
        mem_of_getElem_some (by simpa [initRalphState] using hs)
      rw [if_neg (hinit s hmem)]
      simp [reflectionsFor, initRalphState])
    (by intro r hr; simp [initRalphState] at hr)
  refine ⟨?_, h.2⟩
  intro s hsm
  obtain ⟨i, hi⟩ := List.mem_iff_getElem?.mp hsm
  exact h.1 i s hi

/-- Claim C1, witness: a first-attempt success produces exactly one
Reflection, with `final_success = true`. -/
theorem claim_C1_amended_witness :
    (∀ s ∈ (ralphRun
        { implOutcome := fun _ _ =>
            { success := true, error := none, changesMade := 2, qualityChecks := [] }
          commitShaAt := fun _ => some "abc123" }
        100 3
        [{ id := "US-001", title := "T", priority := 1, dependencies := []
           status := StoryStatus.notStarted, attempts := 0, lastError := none
           completedAtSet := false, commitSha := none }]).stories,
      (reflectionsFor (ralphRun
        { implOutcome := fun _ _ =>
            { success := true, error := none, changesMade := 2, qualityChecks := [] }
          commitShaAt := fun _ => some "abc123" }
        100 3
        [{ id := "US-001", title := "T", priority := 1, dependencies := []
           status := StoryStatus.notStarted, attempts := 0, lastError := none
           completedAtSet := false, commitSha := none }]) s.id).length
        = (if s.status = StoryStatus.completed then 1 else 0)) ∧
    (∀ r ∈ (ralphRun
        { implOutcome := fun _ _ =>
            { success := true, error := none, changesMade := 2, qualityChecks := [] }
          commitShaAt := fun _ => some "abc123" }
        100 3
        [{ id := "US-001", title := "T", priority := 1, dependencies := []
           status := StoryStatus.notStarted, attempts := 0, lastError := none
           completedAtSet := false, commitSha := none }]).reflections,
      r.finalSuccess = true) :=
  claim_C1_amended
    { implOutcome := fun _ _ =>
        { success := true, error := none, changesMade := 2, qualityChecks := [] }
      commitShaAt := fun _ => some "abc123" }
    100 3
    [{ id := "US-001", title := "T", priority := 1, dependencies := []
       status := StoryStatus.notStarted, attempts := 0, lastError := none
       completedAtSet := false, commitSha := none }]
    (by decide) (by decide)
